import Mathlib

/-!
# Verification of the user CRUD service (package `server`)

A shallow embedding of `internal/server/user_validation.go` and
`internal/server/server.go`, together with the in-memory `mockStore` of
`internal/server/server_handlers_test.go`, followed by theorems about them.

Modelling conventions.

* A Go `string` holding UTF-8 text is a Lean `String` (a sequence of Unicode
  code points); Go's `len(s)` is the number of bytes of its UTF-8 encoding,
  here `len s = s.utf8ByteSize`.
* A Go `int32` is an `Int`; the one place where the code can overflow
  (`m.nextID++`) wraps explicitly with `wrapInt32`.
* A handler is a pure function from the store state and the request to the
  new store state and the response that was written. The JSON encoding of a
  body is kept abstract: a response carries the value that is encoded. What
  `log.Println` writes stays on the server and is not part of the model.
-/

set_option autoImplicit false

namespace Server

/-! ## Go library functions used by the code -/

deriving instance DecidableEq for Except

/-- Go's `unicode.IsSpace`: the Latin-1 white space characters
`'\t', '\n', '\v', '\f', '\r', ' ', U+0085, U+00A0`, and above Latin-1 the
code points of the Unicode `White_Space` property. -/
def IsSpace (r : Char) : Bool :=
  let n := r.toNat
  if n ≤ 0xFF then
    n == 0x09 || n == 0x0A || n == 0x0B || n == 0x0C || n == 0x0D || n == 0x20 ||
      n == 0x85 || n == 0xA0
  else
    n == 0x1680 || (decide (0x2000 ≤ n) && decide (n ≤ 0x200A)) || n == 0x2028 ||
      n == 0x2029 || n == 0x202F || n == 0x205F || n == 0x3000

/-- Go's `strings.TrimSpace`: the string without its leading and trailing
white space, as `unicode.IsSpace` defines it. -/
def TrimSpace (s : String) : String :=
  String.mk ((s.data.dropWhile IsSpace).reverse.dropWhile IsSpace).reverse

/-- Go's builtin `len` on a string: the number of bytes of the string. -/
def len (s : String) : Nat :=
  s.utf8ByteSize

/-- The two kinds of error of package `strconv`: `ErrSyntax` and `ErrRange`. -/
inductive NumError where
  | ErrSyntax
  | ErrRange
  deriving DecidableEq, Repr

/-- The digit loop of Go's `strconv.ParseUint` for base 10, from the
accumulated value `n`: a character that is not a decimal digit is a syntax
error, a value above `maxVal` (or an overflow of the 64-bit accumulator) a
range error, reported as soon as it is met. -/
def ParseUint.loop (maxVal : Nat) : List Char → Nat → Nat × Option NumError
  | [], n => (n, none)
  | c :: cs, n =>
    if '0'.toNat ≤ c.toNat ∧ c.toNat ≤ '9'.toNat then
      let d := c.toNat - '0'.toNat
      if n ≥ (2 ^ 64 - 1) / 10 + 1 then (maxVal, some NumError.ErrRange)
      else
        let n10 := (n * 10) % 2 ^ 64
        let n1 := (n10 + d) % 2 ^ 64
        if n1 < n10 ∨ n1 > maxVal then (maxVal, some NumError.ErrRange)
        else ParseUint.loop maxVal cs n1
    else (0, some NumError.ErrSyntax)

/-- Go's `strconv.ParseUint(s, 10, bitSize)`: the value and the error, if
any. The empty string is a syntax error. -/
def ParseUint (s : String) (bitSize : Nat) : Nat × Option NumError :=
  if s = "" then (0, some NumError.ErrSyntax)
  else ParseUint.loop (2 ^ bitSize - 1) s.data 0

/-- Go's `strconv.ParseInt(s, 10, bitSize)`: an optional sign, then
`ParseUint` on the rest, then the check of the signed range. -/
def ParseInt (s : String) (bitSize : Nat) : Int × Option NumError :=
  match s.data with
  | [] => (0, some NumError.ErrSyntax)
  | c :: cs =>
    let neg := c == '-'
    let rest : String := if c == '+' ∨ c == '-' then String.mk cs else s
    match ParseUint rest bitSize with
    | (_, some NumError.ErrSyntax) => (0, some NumError.ErrSyntax)
    | (un, _) =>
      let cutoff : Nat := 2 ^ (bitSize - 1)
      if ¬ neg ∧ un ≥ cutoff then ((cutoff : Int) - 1, some NumError.ErrRange)
      else if neg ∧ un > cutoff then (-(cutoff : Int), some NumError.ErrRange)
      else
        let n : Int := (un : Int)
        (if neg then -n else n, none)

/-- Go's conversion `int32(x)` of a wider integer: the value modulo `2^32`
in the signed 32-bit range. It is also the result of 32-bit arithmetic that
overflows. -/
def wrapInt32 (x : Int) : Int :=
  (x + 2 ^ 31) % 2 ^ 32 - 2 ^ 31

/-! ## `user_validation.go` -/

/-- The `ValidationError` struct: a field name and a message. -/
structure ValidationError where
  Field : String
  Message : String
  deriving DecidableEq, Repr

/-- The function `validateUserInput`: three independent `if` statements, each
appending at most one error to `errs`. -/
def validateUserInput (name email : String) (age : Int) : List ValidationError :=
  let errs : List ValidationError := []
  let errs :=
    if TrimSpace name = "" then
      errs ++ [{ Field := "name", Message := "name is required" }]
    else if len name > 255 then
      errs ++ [{ Field := "name", Message := "name is too long (max 255)" }]
    else errs
  let errs :=
    if TrimSpace email = "" then
      errs ++ [{ Field := "email", Message := "email is required" }]
    else if len email > 255 then
      errs ++ [{ Field := "email", Message := "email is too long (max 255)" }]
    else errs
  let errs :=
    if age < 18 then
      errs ++ [{ Field := "age", Message := "age must be >= 18" }]
    else errs
  errs

/-! ## The store interface (package `db/sqlc`) -/

/-- Modelled from the spec: the `db.User` struct of package `db/sqlc`, whose
declaration is generated code outside the sources at hand; the fields are the
ones of the spec's User JSON shape, `id`, `name`, `email`, `age`, named as the
handlers and the tests name them. -/
structure User where
  ID : Int
  Name : String
  Email : String
  Age : Int
  deriving DecidableEq, Repr

/-- Modelled from the spec: the `db.CreateUserParams` struct, the three fields
that `handleCreateUser` fills in. -/
structure CreateUserParams where
  Name : String
  Email : String
  Age : Int
  deriving DecidableEq, Repr

/-- Modelled from the spec: the `db.UpdateUserParams` struct, the four fields
that `handleUpdateUser` fills in. -/
structure UpdateUserParams where
  ID : Int
  Name : String
  Email : String
  Age : Int
  deriving DecidableEq, Repr

/-- An error returned by a store operation: the distinguished not-found signal
`sql.ErrNoRows`, or any other error, with its cause. -/
inductive StoreError where
  | ErrNoRows
  | other (cause : String)
  deriving DecidableEq, Repr

/-- The test `errors.Is(err, sql.ErrNoRows)`. -/
def StoreError.isErrNoRows : StoreError → Bool
  | StoreError.ErrNoRows => true
  | StoreError.other _ => false

/-- Modelled from the spec: the `db.Store` interface, five operations; each
takes the state of the store and returns its result with the new state. -/
structure Store (σ : Type) where
  CreateUser : σ → CreateUserParams → Except StoreError User × σ
  ListUsers : σ → Except StoreError (List User) × σ
  GetUser : σ → Int → Except StoreError User × σ
  UpdateUser : σ → UpdateUserParams → Except StoreError User × σ
  DeleteUser : σ → Int → Option StoreError × σ

/-- One call of a store operation, with its argument. -/
inductive StoreCall where
  | CreateUser (arg : CreateUserParams)
  | ListUsers
  | GetUser (id : Int)
  | UpdateUser (arg : UpdateUserParams)
  | DeleteUser (id : Int)
  deriving DecidableEq, Repr

/-- A store that behaves as `st` and keeps the list of the calls made to it,
the latest last. -/
def recording {σ : Type} (st : Store σ) : Store (σ × List StoreCall) where
  CreateUser := fun s arg =>
    ((st.CreateUser s.1 arg).1, ((st.CreateUser s.1 arg).2, s.2 ++ [StoreCall.CreateUser arg]))
  ListUsers := fun s =>
    ((st.ListUsers s.1).1, ((st.ListUsers s.1).2, s.2 ++ [StoreCall.ListUsers]))
  GetUser := fun s id =>
    ((st.GetUser s.1 id).1, ((st.GetUser s.1 id).2, s.2 ++ [StoreCall.GetUser id]))
  UpdateUser := fun s arg =>
    ((st.UpdateUser s.1 arg).1, ((st.UpdateUser s.1 arg).2, s.2 ++ [StoreCall.UpdateUser arg]))
  DeleteUser := fun s id =>
    ((st.DeleteUser s.1 id).1, ((st.DeleteUser s.1 id).2, s.2 ++ [StoreCall.DeleteUser id]))

/-! ## `server.go` -/

/-- The `createUserRequest` struct. -/
structure createUserRequest where
  Name : String
  Email : String
  Age : Int
  deriving DecidableEq, Repr

/-- The `validationErrorResponse` struct. -/
structure validationErrorResponse where
  Errors : List ValidationError
  deriving DecidableEq, Repr

/-- What a handler reads from `*http.Request`: the route parameter
`chi.URLParam(r, "id")` (the empty string when the route has none) and the
outcome of `json.NewDecoder(r.Body).Decode(&req)`, `none` when decoding
fails. -/
structure Request where
  id : String
  body : Option createUserRequest
  deriving DecidableEq, Repr

/-- The body of a response: nothing, the plain-text message of `http.Error`,
or the value given to `json.NewEncoder(w).Encode`. -/
inductive Body where
  | empty
  | text (msg : String)
  | errors (resp : validationErrorResponse)
  | user (u : User)
  | users (us : List User)
  | health
  deriving DecidableEq, Repr

/-- What a handler writes to `http.ResponseWriter`: the status code (200 when
the handler writes a body without calling `WriteHeader`) and the body. -/
structure Response where
  status : Nat
  body : Body
  deriving DecidableEq, Repr

/-- The function `http.Error(w, msg, code)`. -/
def httpError (msg : String) (code : Nat) : Response :=
  { status := code, body := Body.text msg }

/-- The handler `handleHealth`. -/
def handleHealth {σ : Type} (_store : Store σ) (s : σ) (_r : Request) : σ × Response :=
  (s, { status := 200, body := Body.health })

/-- The handler `handleCreateUser` (POST /users). -/
def handleCreateUser {σ : Type} (store : Store σ) (s : σ) (r : Request) : σ × Response :=
  match r.body with
  | none => (s, httpError "invalid JSON body" 400)
  | some req =>
    let errs := validateUserInput req.Name req.Email req.Age
    if errs.length > 0 then
      (s, { status := 400, body := Body.errors { Errors := errs } })
    else
      let arg : CreateUserParams := { Name := req.Name, Email := req.Email, Age := req.Age }
      match store.CreateUser s arg with
      | (Except.error _, s') => (s', httpError "failed to create user" 500)
      | (Except.ok user, s') => (s', { status := 201, body := Body.user user })

/-- The handler `handleListUsers` (GET /users). -/
def handleListUsers {σ : Type} (store : Store σ) (s : σ) (_r : Request) : σ × Response :=
  match store.ListUsers s with
  | (Except.error _, s') => (s', httpError "failed to list users" 500)
  | (Except.ok users, s') => (s', { status := 200, body := Body.users users })

/-- The function `parseIDParam`: the route parameter `id` read as a base-10
32-bit signed integer. -/
def parseIDParam (r : Request) : Except NumError Int :=
  let idStr := r.id
  match ParseInt idStr 32 with
  | (_, some err) => Except.error err
  | (id64, none) => Except.ok (wrapInt32 id64)

/-- The handler `handleGetUser` (GET /users/{id}). -/
def handleGetUser {σ : Type} (store : Store σ) (s : σ) (r : Request) : σ × Response :=
  match parseIDParam r with
  | Except.error _ => (s, httpError "invalid id" 400)
  | Except.ok id =>
    match store.GetUser s id with
    | (Except.error err, s') =>
      if err.isErrNoRows then (s', httpError "user not found" 404)
      else (s', httpError "failed to get user" 500)
    | (Except.ok user, s') => (s', { status := 200, body := Body.user user })

/-- The handler `handleUpdateUser` (PUT /users/{id}). -/
def handleUpdateUser {σ : Type} (store : Store σ) (s : σ) (r : Request) : σ × Response :=
  match parseIDParam r with
  | Except.error _ => (s, httpError "invalid id" 400)
  | Except.ok id =>
    match r.body with
    | none => (s, httpError "invalid JSON body" 400)
    | some req =>
      let errs := validateUserInput req.Name req.Email req.Age
      if errs.length > 0 then
        (s, { status := 400, body := Body.errors { Errors := errs } })
      else
        let arg : UpdateUserParams :=
          { ID := id, Name := req.Name, Email := req.Email, Age := req.Age }
        match store.UpdateUser s arg with
        | (Except.error err, s') =>
          if err.isErrNoRows then (s', httpError "user not found" 404)
          else (s', httpError "failed to update user" 500)
        | (Except.ok user, s') => (s', { status := 200, body := Body.user user })

/-- The handler `handleDeleteUser` (DELETE /users/{id}). -/
def handleDeleteUser {σ : Type} (store : Store σ) (s : σ) (r : Request) : σ × Response :=
  match parseIDParam r with
  | Except.error _ => (s, httpError "invalid id" 400)
  | Except.ok id =>
    match store.DeleteUser s id with
    | (some _, s') => (s', httpError "failed to delete user" 500)
    | (none, s') => (s', { status := 204, body := Body.empty })

/-! ## The in-memory store of `server_handlers_test.go` -/

/-- The `mockStore` struct: the Go map `users` from id to user, a finite map,
and the next id to assign. -/
structure mockStore where
  users : Finmap (fun _ : Int => User)
  nextID : Int
  deriving DecidableEq

/-- The function `newMockStore`: no users, the next id is 1. -/
def newMockStore : mockStore :=
  { users := ∅, nextID := 1 }

/-- The method `mockStore.CreateUser`. -/
def mockStore.CreateUser (m : mockStore) (arg : CreateUserParams) :
    Except StoreError User × mockStore :=
  let u : User := { ID := m.nextID, Name := arg.Name, Email := arg.Email, Age := arg.Age }
  (Except.ok u, { users := m.users.insert m.nextID u, nextID := wrapInt32 (m.nextID + 1) })

/-- The keys of a finite map in ascending order (an insertion sort of the
keys, which does not depend on the order they are listed in). -/
def sortedKeys (s : Finset Int) : List Int :=
  Quot.liftOn s.val (fun l => l.insertionSort (fun a b => a ≤ b)) (fun l₁ l₂ h =>
    List.eq_of_perm_of_sorted
      (((List.perm_insertionSort _ l₁).trans h).trans (List.perm_insertionSort _ l₂).symm)
      (List.sorted_insertionSort _ l₁) (List.sorted_insertionSort _ l₂))

/-- Go's `sort.Slice(result, less)` where `less` compares the `ID`s. The
function `sort.Slice` is not stable: for users of equal `ID` Go may return them
in any order, and the insertion sort here returns one of these. For users of
pairwise distinct `ID`s there is one sorted arrangement only, so that every
sorting algorithm returns the same list. -/
def sortByID (result : List User) : List User :=
  result.insertionSort (fun a b => a.ID ≤ b.ID)

/-- The method `mockStore.ListUsers`, given the order `order` in which the
loop `for _, u := range m.users` visits the keys of the map: the users are
appended to `result` in that order, and `result` is then sorted by `ID`. Go
leaves the order of a map iteration unspecified: `order` can be any
arrangement of the keys of the map, each key once, and a different one at each
call. -/
def mockStore.ListUsers (m : mockStore) (order : List Int) :
    Except StoreError (List User) × mockStore :=
  let result : List User := order.filterMap (fun k => m.users.lookup k)
  (Except.ok (sortByID result), m)

/-- The method `mockStore.GetUser`. -/
def mockStore.GetUser (m : mockStore) (id : Int) : Except StoreError User × mockStore :=
  match m.users.lookup id with
  | none => (Except.error StoreError.ErrNoRows, m)
  | some u => (Except.ok u, m)

/-- The method `mockStore.UpdateUser`. -/
def mockStore.UpdateUser (m : mockStore) (arg : UpdateUserParams) :
    Except StoreError User × mockStore :=
  match m.users.lookup arg.ID with
  | none => (Except.error StoreError.ErrNoRows, m)
  | some _ =>
    let u : User := { ID := arg.ID, Name := arg.Name, Email := arg.Email, Age := arg.Age }
    (Except.ok u, { m with users := m.users.insert arg.ID u })

/-- The method `mockStore.DeleteUser`. -/
def mockStore.DeleteUser (m : mockStore) (id : Int) : Option StoreError × mockStore :=
  (none, { m with users := m.users.erase id })

/-- The `mockStore` as an implementation of the `db.Store` interface, on a Go
runtime whose map iteration visits the keys of a map with key set `s` in the
order `iter s`. -/
def mockStore.storeIn (iter : Finset Int → List Int) : Store mockStore where
  CreateUser := mockStore.CreateUser
  ListUsers := fun m => m.ListUsers (iter m.users.keys)
  GetUser := mockStore.GetUser
  UpdateUser := mockStore.UpdateUser
  DeleteUser := mockStore.DeleteUser

/-- The `mockStore` as an implementation of the `db.Store` interface, with one
iteration order fixed, by descending key; it stands for the store where the
result of `ListUsers` is not at stake. What `ListUsers` returns is stated for
every iteration order, with `mockStore.storeIn`. -/
def mockStore.store : Store mockStore where
  CreateUser := mockStore.CreateUser
  ListUsers := fun m => m.ListUsers (sortedKeys m.users.keys).reverse
  GetUser := mockStore.GetUser
  UpdateUser := mockStore.UpdateUser
  DeleteUser := mockStore.DeleteUser

/-- The number of records of the store, Go's `len(m.users)`. -/
def mockStore.size (m : mockStore) : Nat :=
  m.users.keys.card

/-- The state of the in-memory store after one call of a store operation. -/
def mockStore.call (m : mockStore) : StoreCall → mockStore
  | StoreCall.CreateUser arg => (m.CreateUser arg).2
  | StoreCall.ListUsers => (m.ListUsers (sortedKeys m.users.keys).reverse).2
  | StoreCall.GetUser id => (m.GetUser id).2
  | StoreCall.UpdateUser arg => (m.UpdateUser arg).2
  | StoreCall.DeleteUser id => (m.DeleteUser id).2

/-- The state of the in-memory store that `newMockStore` returns after a
sequence of calls of its operations, the first call first. -/
def mockStore.after (calls : List StoreCall) : mockStore :=
  calls.foldl mockStore.call newMockStore

/-- A store every operation of which fails with the error `e`; it has no
state. -/
def failingStore (e : StoreError) : Store Unit where
  CreateUser := fun s _ => (Except.error e, s)
  ListUsers := fun s => (Except.error e, s)
  GetUser := fun s _ => (Except.error e, s)
  UpdateUser := fun s _ => (Except.error e, s)
  DeleteUser := fun s _ => (some e, s)

/-! ## The routes of `server.go` -/

/-- The six routes that the method `routes` registers: `GET /health`, and
under `/users` the routes `POST /`, `GET /`, `GET /{id}`, `PUT /{id}` and
`DELETE /{id}`. -/
inductive Route where
  | health
  | createUser
  | listUsers
  | getUser
  | updateUser
  | deleteUser
  deriving DecidableEq, Repr

/-- The handler that `routes` registers for a route, applied to a request. -/
def serve {σ : Type} (store : Store σ) (s : σ) (route : Route) (r : Request) : σ × Response :=
  match route with
  | Route.health => handleHealth store s r
  | Route.createUser => handleCreateUser store s r
  | Route.listUsers => handleListUsers store s r
  | Route.getUser => handleGetUser store s r
  | Route.updateUser => handleUpdateUser store s r
  | Route.deleteUser => handleDeleteUser store s r

/-- The state of the store after a sequence of requests, served one after the
other, the first request first. -/
def serveAll {σ : Type} (store : Store σ) (s : σ) (reqs : List (Route × Request)) : σ :=
  reqs.foldl (fun st q => (serve store st q.1 q.2).1) s

/-! ## The specification of the id parameter -/

/-- Specification side: whether a character is one of the decimal digits
`0` to `9`. -/
def isDecimalDigit (c : Char) : Bool :=
  decide ('0'.toNat ≤ c.toNat) && decide (c.toNat ≤ '9'.toNat)

/-- Specification side: the number that a sequence of decimal digits denotes
in base 10, continuing from the value `n` of the digits before it. -/
def decimalValueFrom (n : Nat) (ds : List Char) : Nat :=
  ds.foldl (fun acc c => 10 * acc + (c.toNat - '0'.toNat)) n

/-- Specification side: the number that a non-empty sequence of decimal
digits denotes; `none` for the empty sequence and for a sequence with a
character that is not a decimal digit. -/
def decimalValue (ds : List Char) : Option Nat :=
  if ds ≠ [] ∧ ds.all isDecimalDigit = true then some (decimalValueFrom 0 ds) else none

/-- Specification side: the integer that an optionally signed decimal numeral
denotes, a sign `+` or `-` or none followed by one or more decimal digits;
`none` for a string that is not such a numeral. -/
def numeralValue (s : String) : Option Int :=
  match s.data with
  | [] => none
  | c :: cs =>
    if c = '+' then (decimalValue cs).map (fun n : Nat => (n : Int))
    else if c = '-' then (decimalValue cs).map (fun n : Nat => -(n : Int))
    else (decimalValue (c :: cs)).map (fun n : Nat => (n : Int))

/-- Specification side: the value of an optionally signed decimal numeral
whose value lies in the 32-bit signed range, from -2147483648 to 2147483647;
`none` for every other string. -/
def int32Numeral (s : String) : Option Int :=
  match numeralValue s with
  | none => none
  | some v => if -2147483648 ≤ v ∧ v ≤ 2147483647 then some v else none

/-! ## Properties of `validateUserInput` -/

/-- The result of `validateUserInput` is the concatenation of what the three
`if` statements append, in the order name, email, age. -/
theorem validateUserInput_eq_append (name email : String) (age : Int) :
    validateUserInput name email age =
      (if TrimSpace name = "" then
          [({ Field := "name", Message := "name is required" } : ValidationError)]
        else if len name > 255 then
          [{ Field := "name", Message := "name is too long (max 255)" }]
        else []) ++
      ((if TrimSpace email = "" then
          [({ Field := "email", Message := "email is required" } : ValidationError)]
        else if len email > 255 then
          [{ Field := "email", Message := "email is too long (max 255)" }]
        else []) ++
      (if age < 18 then
          [({ Field := "age", Message := "age must be >= 18" } : ValidationError)]
        else [])) := by
  unfold validateUserInput
  split_ifs <;> rfl

/-- An error on the field `name` is returned exactly when the name is blank
or longer than 255 bytes. -/
theorem exists_name_error_iff (name email : String) (age : Int) :
    (∃ e ∈ validateUserInput name email age, e.Field = "name") ↔
      (TrimSpace name = "" ∨ len name > 255) := by
  rw [validateUserInput_eq_append]
  split_ifs <;> simp_all

/-- Claim C1: `validateUserInput(name, email, age)` contains an error whose
`Field` is `"name"` if and only if `strings.TrimSpace(name)` is the empty
string or `len(name) > 255`, the byte length of the untrimmed name; the email
and the age have no influence on whether there is one. -/
theorem validateUserInput_name_error_iff (name email : String) (age : Int) :
    ((∃ e ∈ validateUserInput name email age, e.Field = "name") ↔
        (TrimSpace name = "" ∨ len name > 255)) ∧
      ∀ (email' : String) (age' : Int),
        ((∃ e ∈ validateUserInput name email age, e.Field = "name") ↔
          (∃ e ∈ validateUserInput name email' age', e.Field = "name")) := by
  refine ⟨exists_name_error_iff name email age, fun email' age' => ?_⟩
  rw [exists_name_error_iff, exists_name_error_iff]

/-- An error on the field `age` is returned exactly when the age is below
18. -/
theorem exists_age_error_iff (name email : String) (age : Int) :
    (∃ e ∈ validateUserInput name email age, e.Field = "age") ↔ age < 18 := by
  rw [validateUserInput_eq_append]
  split_ifs <;> simp_all

/-- Claim C2: `validateUserInput(name, email, age)` contains the error with
`Field` `"age"` and message `"age must be >= 18"` when `age < 18`, and no
error with `Field` `"age"` when `age >= 18`; there is no upper bound, and the
largest 32-bit age, 2147483647, yields no age error. It holds for every
integer age, so for every 32-bit one. -/
theorem validateUserInput_age_error_iff (name email : String) (age : Int) :
    (({ Field := "age", Message := "age must be >= 18" } : ValidationError) ∈
        validateUserInput name email age ↔ age < 18) ∧
      ((∃ e ∈ validateUserInput name email age, e.Field = "age") ↔ age < 18) ∧
      ¬ ∃ e ∈ validateUserInput name email 2147483647, e.Field = "age" := by
  refine ⟨?_, exists_age_error_iff name email age, ?_⟩
  · rw [validateUserInput_eq_append]
    split_ifs <;> simp_all
  · rw [exists_age_error_iff]
    decide

/-- Claim C3: `validateUserInput` does not stop at the first field in
violation: the fields of the errors it returns are, in the order name, email,
age, exactly the fields in violation (name: trimmed empty or `len > 255`;
email: the same; age below 18), each once, so the number of errors is the
number of fields in violation; and `validateUserInput("", "", 10)` returns
three errors, on name, email and age. -/
theorem validateUserInput_fields (name email : String) (age : Int) :
    (validateUserInput name email age).map (fun e => e.Field) =
        (if TrimSpace name = "" ∨ len name > 255 then ["name"] else []) ++
          ((if TrimSpace email = "" ∨ len email > 255 then ["email"] else []) ++
            (if age < 18 then ["age"] else [])) ∧
      (validateUserInput name email age).length =
        (if TrimSpace name = "" ∨ len name > 255 then 1 else 0) +
          ((if TrimSpace email = "" ∨ len email > 255 then 1 else 0) +
            (if age < 18 then 1 else 0)) ∧
      (validateUserInput "" "" 10).map (fun e => e.Field) = ["name", "email", "age"] := by
  refine ⟨?_, ?_, by decide⟩
  · rw [validateUserInput_eq_append]
    split_ifs <;> simp_all <;> omega
  · rw [validateUserInput_eq_append]
    split_ifs <;> simp_all <;> omega

/-- The trimmed string is empty exactly when every character of the string
is white space. -/
theorem TrimSpace_eq_empty_iff (s : String) :
    TrimSpace s = "" ↔ ∀ c ∈ s.data, IsSpace c = true := by
  have h : TrimSpace s = "" ↔
      ((s.data.dropWhile IsSpace).reverse.dropWhile IsSpace).reverse = [] := by
    unfold TrimSpace
    constructor
    · intro h
      exact congrArg String.data h
    · intro h
      rw [h]
  rw [h, List.reverse_eq_nil_iff, List.dropWhile_eq_nil_iff]
  constructor
  · intro h
    have hnil : s.data.dropWhile IsSpace = [] := by
      by_contra hne
      have hhead := List.head_dropWhile_not IsSpace s.data hne
      have := h _ (List.mem_reverse.mpr (List.head_mem hne))
      simp_all
    exact List.dropWhile_eq_nil_iff.mp hnil
  · intro h
    rw [List.dropWhile_eq_nil_iff.mpr h]
    simp

/-- The byte length of a string of `n` copies of one character. -/
theorem len_replicate (n : Nat) (c : Char) :
    len (String.mk (List.replicate n c)) = n * c.utf8Size := by
  induction n with
  | zero => simp [len, String.utf8ByteSize, String.utf8ByteSize.go]
  | succ n ih =>
    simp only [len, String.utf8ByteSize, List.replicate_succ, String.utf8ByteSize.go] at ih ⊢
    rw [ih]
    ring

/-- Refutation of claim C4 as stated: the name of 255 copies of the two-byte
character `é` is not blank and is 255 characters long, the email and the age
are valid, and `validateUserInput` still returns an error, because the name
is 510 bytes long. -/
theorem validateUserInput_rejects_255_multibyte_chars :
    TrimSpace (String.mk (List.replicate 255 'é')) ≠ "" ∧
      (String.mk (List.replicate 255 'é')).length ≤ 255 ∧
      TrimSpace "alice@example.com" ≠ "" ∧
      ("alice@example.com").length ≤ 255 ∧
      (18 : Int) ≤ 20 ∧
      validateUserInput (String.mk (List.replicate 255 'é')) "alice@example.com" 20 =
        [{ Field := "name", Message := "name is too long (max 255)" }] := by
  have hname : TrimSpace (String.mk (List.replicate 255 'é')) ≠ "" := by
    rw [Ne, TrimSpace_eq_empty_iff]
    intro h
    have := h 'é' (List.mem_replicate.mpr ⟨by decide, rfl⟩)
    revert this
    decide
  have hlen : len (String.mk (List.replicate 255 'é')) = 510 := by
    rw [len_replicate]
    decide
  have hchars : (String.mk (List.replicate 255 'é')).length ≤ 255 := by
    show (List.replicate 255 'é').length ≤ 255
    rw [List.length_replicate]
  refine ⟨hname, hchars, by decide, by decide, by decide, ?_⟩
  rw [validateUserInput_eq_append, if_neg hname, hlen]
  decide

/-- Claim C4, amended: for every name and every email that are each non-blank
after trimming and at most 255 bytes long (`len`, the length of the UTF-8
encoding), and every age of at least 18, `validateUserInput` returns the
empty sequence. -/
theorem validateUserInput_valid (name email : String) (age : Int)
    (hname : TrimSpace name ≠ "") (hnameLen : len name ≤ 255)
    (hemail : TrimSpace email ≠ "") (hemailLen : len email ≤ 255)
    (hage : 18 ≤ age) :
    validateUserInput name email age = [] := by
  rw [validateUserInput_eq_append, if_neg hname, if_neg hemail, if_neg (by omega),
    if_neg (by omega), if_neg (by omega)]
  rfl

/-- The amended claim C4 at the input of `TestValidateUserInput_Valid`. -/
theorem validateUserInput_valid_witness :
    validateUserInput "Alice" "alice@example.com" 20 = [] :=
  validateUserInput_valid "Alice" "alice@example.com" 20 (by decide) (by decide) (by decide)
    (by decide) (by decide)

/-! ## Properties of the handlers -/

/-- When validation fails, `handleCreateUser` answers 400 with the errors and
returns the state of the store as it was, whatever the store is. -/
theorem handleCreateUser_of_errors {σ : Type} (store : Store σ) (s : σ) (id : String)
    (req : createUserRequest) (h : validateUserInput req.Name req.Email req.Age ≠ []) :
    handleCreateUser store s { id := id, body := some req } =
      (s, { status := 400,
            body := Body.errors { Errors := validateUserInput req.Name req.Email req.Age } }) := by
  have hlen : (validateUserInput req.Name req.Email req.Age).length > 0 :=
    List.length_pos.mpr h
  simp only [handleCreateUser, if_pos hlen]

/-- Claim C5: for every decoded Create body on which `validateUserInput`
returns a non-empty list, `handleCreateUser` responds with status 400 and the
body `errors` carrying exactly that list, whatever the store and its state;
the state is returned unchanged and, on a store that records its calls, no
call is recorded. With the body of `TestHandleCreateUser_InvalidData` on the
new in-memory store, the store remains empty. -/
theorem handleCreateUser_invalid {σ : Type} (store : Store σ) (s : σ)
    (calls : List StoreCall) (id : String) (req : createUserRequest)
    (h : validateUserInput req.Name req.Email req.Age ≠ []) :
    handleCreateUser store s { id := id, body := some req } =
        (s, { status := 400,
              body := Body.errors
                { Errors := validateUserInput req.Name req.Email req.Age } }) ∧
      handleCreateUser (recording store) (s, calls) { id := id, body := some req } =
        ((s, calls), { status := 400,
                       body := Body.errors
                         { Errors := validateUserInput req.Name req.Email req.Age } }) ∧
      handleCreateUser mockStore.store newMockStore
          { id := "", body := some { Name := "", Email := "bad@example.com", Age := 10 } } =
        (newMockStore,
          { status := 400,
            body := Body.errors
              { Errors := [{ Field := "name", Message := "name is required" },
                           { Field := "age", Message := "age must be >= 18" }] } }) ∧
      newMockStore.size = 0 :=
  ⟨handleCreateUser_of_errors store s id req h,
    handleCreateUser_of_errors (recording store) (s, calls) id req h, by decide, by decide⟩

/-- Claim C5 at the body of `TestHandleCreateUser_InvalidData`, on the new
in-memory store with no call recorded. -/
theorem handleCreateUser_invalid_witness :
    handleCreateUser (recording mockStore.store) (newMockStore, [])
        { id := "", body := some { Name := "", Email := "bad@example.com", Age := 10 } } =
      ((newMockStore, []),
        { status := 400,
          body := Body.errors
            { Errors := validateUserInput "" "bad@example.com" 10 } }) :=
  (handleCreateUser_invalid mockStore.store newMockStore [] ""
    { Name := "", Email := "bad@example.com", Age := 10 } (by decide)).2.1

/-- Claim C6: for every decoded Create body that passes `validateUserInput`,
`handleCreateUser` on the new in-memory store responds with status 201 and a
user with the request's name, email and age and a non-zero id (it is 1);
afterwards the store holds exactly one record, the returned user under its
id. -/
theorem handleCreateUser_valid_fresh (id : String) (req : createUserRequest)
    (h : validateUserInput req.Name req.Email req.Age = []) :
    ∃ u : User,
      handleCreateUser mockStore.store newMockStore { id := id, body := some req } =
          ({ users := Finmap.singleton u.ID u, nextID := 2 },
            { status := 201, body := Body.user u }) ∧
        u.Name = req.Name ∧ u.Email = req.Email ∧ u.Age = req.Age ∧ u.ID ≠ 0 ∧ u.ID = 1 ∧
        (handleCreateUser mockStore.store newMockStore
            { id := id, body := some req }).1.size = 1 ∧
        ∀ (k : Int) (v : User),
          (handleCreateUser mockStore.store newMockStore
              { id := id, body := some req }).1.users.lookup k = some v ↔
            (k = u.ID ∧ v = u) := by
  have hrun : handleCreateUser mockStore.store newMockStore { id := id, body := some req } =
      ({ users := Finmap.singleton 1
            { ID := 1, Name := req.Name, Email := req.Email, Age := req.Age },
         nextID := 2 },
        { status := 201,
          body := Body.user
            { ID := 1, Name := req.Name, Email := req.Email, Age := req.Age } }) := by
    simp only [handleCreateUser, h, List.length_nil, gt_iff_lt, lt_self_iff_false, if_false,
      mockStore.store, mockStore.CreateUser, newMockStore]
    rfl
  refine ⟨{ ID := 1, Name := req.Name, Email := req.Email, Age := req.Age }, hrun, rfl, rfl,
    rfl, by simp, rfl, ?_, ?_⟩
  · rw [hrun]
    simp [mockStore.size, Finmap.keys_singleton]
  · intro k v
    rw [hrun]
    dsimp only
    constructor
    · intro hk
      have hmem := Finmap.mem_of_lookup_eq_some hk
      have hk1 : k = 1 := (Finmap.mem_singleton _ _ _).mp hmem
      subst hk1
      simp only [Finmap.lookup_singleton_eq, Option.some.injEq] at hk
      exact ⟨rfl, hk.symm⟩
    · rintro ⟨rfl, rfl⟩
      exact Finmap.lookup_singleton_eq

/-- Claim C6 at the body of `TestHandleCreateUser_Valid`. -/
theorem handleCreateUser_valid_fresh_witness :
    handleCreateUser mockStore.store newMockStore
        { id := "", body := some { Name := "Alice", Email := "alice@example.com", Age := 22 } } =
      ({ users := Finmap.singleton 1
            { ID := 1, Name := "Alice", Email := "alice@example.com", Age := 22 },
         nextID := 2 },
        { status := 201,
          body := Body.user
            { ID := 1, Name := "Alice", Email := "alice@example.com", Age := 22 } }) :=
  (handleCreateUser_valid_fresh ""
    { Name := "Alice", Email := "alice@example.com", Age := 22 } (by decide)).elim
    (fun u hu => by
      obtain ⟨hrun, hname, hemail, hage, -, hid, -⟩ := hu
      have hu1 : u = { ID := 1, Name := "Alice", Email := "alice@example.com", Age := 22 } := by
        cases u
        simp_all
      rw [hrun, hu1])

/-- Claim C7: for every state of the in-memory store and every id parameter
that parses as a 32-bit signed integer for which the store holds no record,
so that the store signals `sql.ErrNoRows`, `handleGetUser` responds with
status 404 and the message "user not found", not 200 and not 500, and leaves
the store unchanged; in particular so for every id on a store whose map is
empty. -/
theorem handleGetUser_not_found (m : mockStore) (r : Request) (id : Int)
    (hid : parseIDParam r = Except.ok id) (habs : m.users.lookup id = none) :
    mockStore.store.GetUser m id = (Except.error StoreError.ErrNoRows, m) ∧
      handleGetUser mockStore.store m r = (m, httpError "user not found" 404) ∧
      (handleGetUser mockStore.store m r).2.status = 404 ∧
      (handleGetUser mockStore.store m r).2.status ≠ 200 ∧
      (handleGetUser mockStore.store m r).2.status ≠ 500 ∧
      ∀ n : Int, handleGetUser mockStore.store { users := ∅, nextID := n } r =
        ({ users := ∅, nextID := n }, httpError "user not found" 404) := by
  have hget : ∀ m' : mockStore, m'.users.lookup id = none →
      handleGetUser mockStore.store m' r = (m', httpError "user not found" 404) := by
    intro m' h'
    simp only [handleGetUser, hid, mockStore.store, mockStore.GetUser, h',
      StoreError.isErrNoRows, if_true]
  refine ⟨?_, hget m habs, ?_, ?_, ?_, fun n => hget _ (Finmap.lookup_empty id)⟩
  · simp only [mockStore.store, mockStore.GetUser, habs]
  · rw [hget m habs]; rfl
  · rw [hget m habs]; simp [httpError]
  · rw [hget m habs]; simp [httpError]

/-- Claim C7 at the request of `TestHandleGetUser_NotFound`: id 123 on the
new store. -/
theorem handleGetUser_not_found_witness :
    handleGetUser mockStore.store newMockStore { id := "123", body := none } =
      (newMockStore, httpError "user not found" 404) :=
  (handleGetUser_not_found newMockStore { id := "123", body := none } 123 (by decide)
    (by decide)).2.1

/-- Claim C8: for every state of the in-memory store, every id parameter that
parses as a 32-bit signed integer with no record in the store, and every
decoded body that passes `validateUserInput`, `handleUpdateUser` responds with
status 404 and leaves the store unchanged: no record is created for the
id. -/
theorem handleUpdateUser_not_found (m : mockStore) (r : Request) (id : Int)
    (req : createUserRequest) (hid : parseIDParam r = Except.ok id)
    (hbody : r.body = some req) (hvalid : validateUserInput req.Name req.Email req.Age = [])
    (habs : m.users.lookup id = none) :
    handleUpdateUser mockStore.store m r = (m, httpError "user not found" 404) ∧
      (handleUpdateUser mockStore.store m r).2.status = 404 ∧
      (handleUpdateUser mockStore.store m r).1 = m ∧
      (handleUpdateUser mockStore.store m r).1.users.lookup id = none := by
  have hrun : handleUpdateUser mockStore.store m r = (m, httpError "user not found" 404) := by
    simp only [handleUpdateUser, hid, hbody, hvalid, List.length_nil, gt_iff_lt,
      lt_self_iff_false, if_false, mockStore.store, mockStore.UpdateUser, habs,
      StoreError.isErrNoRows, if_true]
  refine ⟨hrun, ?_, ?_, ?_⟩
  · rw [hrun]; rfl
  · rw [hrun]
  · rw [hrun]; exact habs

/-- Claim C8 at the request of `TestHandleUpdateUser_NotFound`: id 999 on the
new store. -/
theorem handleUpdateUser_not_found_witness :
    handleUpdateUser mockStore.store newMockStore
        { id := "999", body := some { Name := "X", Email := "x@example.com", Age := 30 } } =
      (newMockStore, httpError "user not found" 404) :=
  (handleUpdateUser_not_found newMockStore
    { id := "999", body := some { Name := "X", Email := "x@example.com", Age := 30 } } 999
    { Name := "X", Email := "x@example.com", Age := 30 } (by decide) rfl (by decide)
    (by decide)).1

/-- Writing under a key that the map holds keeps the set of keys. -/
theorem keys_insert_of_mem (users : Finmap (fun _ : Int => User)) (id : Int) (u : User)
    (h : id ∈ users) : (users.insert id u).keys = users.keys := by
  ext k
  rw [Finmap.mem_keys, Finmap.mem_keys, Finmap.mem_insert]
  constructor
  · rintro (rfl | hk)
    · exact h
    · exact hk
  · exact Or.inr

/-- Deleting a key that the map does not hold leaves the map as it is. -/
theorem erase_of_lookup_eq_none (users : Finmap (fun _ : Int => User)) (id : Int)
    (h : users.lookup id = none) : users.erase id = users := by
  apply Finmap.ext_lookup
  intro k
  by_cases hk : k = id
  · subst hk
    rw [Finmap.lookup_erase, h]
  · exact Finmap.lookup_erase_ne hk

/-- Claim C9: for every state of the in-memory store, every id parameter whose
id has a record in the store, and every decoded body that passes
`validateUserInput`, `handleUpdateUser` responds with status 200 and the user
with that id and the request's name, email and age; afterwards the record of
the store for that id is the returned user, and every other record, the
number of records and the next id are unchanged. -/
theorem handleUpdateUser_found (m : mockStore) (r : Request) (id : Int)
    (req : createUserRequest) (old : User) (hid : parseIDParam r = Except.ok id)
    (hbody : r.body = some req) (hvalid : validateUserInput req.Name req.Email req.Age = [])
    (hold : m.users.lookup id = some old) :
    (handleUpdateUser mockStore.store m r).2 =
        { status := 200,
          body := Body.user
            { ID := id, Name := req.Name, Email := req.Email, Age := req.Age } } ∧
      (handleUpdateUser mockStore.store m r).1.users.lookup id =
        some { ID := id, Name := req.Name, Email := req.Email, Age := req.Age } ∧
      (∀ k : Int, k ≠ id →
        (handleUpdateUser mockStore.store m r).1.users.lookup k = m.users.lookup k) ∧
      (handleUpdateUser mockStore.store m r).1.size = m.size ∧
      (handleUpdateUser mockStore.store m r).1.nextID = m.nextID := by
  have hrun : handleUpdateUser mockStore.store m r =
      ({ users := m.users.insert id
            { ID := id, Name := req.Name, Email := req.Email, Age := req.Age },
         nextID := m.nextID },
        { status := 200,
          body := Body.user
            { ID := id, Name := req.Name, Email := req.Email, Age := req.Age } }) := by
    simp only [handleUpdateUser, hid, hbody, hvalid, List.length_nil, gt_iff_lt,
      lt_self_iff_false, if_false, mockStore.store, mockStore.UpdateUser, hold]
  rw [hrun]
  refine ⟨rfl, Finmap.lookup_insert _, fun k hk => Finmap.lookup_insert_of_ne _ hk, ?_, rfl⟩
  simp only [mockStore.size]
  rw [keys_insert_of_mem _ _ _ (Finmap.mem_of_lookup_eq_some hold)]

/-- Claim C9 at the request of `TestHandleUpdateUser_Valid`: the store holds
Alice under id 1, and the update replaces her name, email and age. -/
theorem handleUpdateUser_found_witness :
    (handleUpdateUser mockStore.store
        { users := Finmap.singleton 1
            { ID := 1, Name := "Alice", Email := "alice@example.com", Age := 22 },
          nextID := 2 }
        { id := "1",
          body := some
            { Name := "Alice Updated", Email := "alice2@example.com", Age := 25 } }).2 =
      { status := 200,
        body := Body.user
          { ID := 1, Name := "Alice Updated", Email := "alice2@example.com", Age := 25 } } :=
  (handleUpdateUser_found
    { users := Finmap.singleton 1
        { ID := 1, Name := "Alice", Email := "alice@example.com", Age := 22 },
      nextID := 2 }
    { id := "1",
      body := some { Name := "Alice Updated", Email := "alice2@example.com", Age := 25 } }
    1 { Name := "Alice Updated", Email := "alice2@example.com", Age := 25 }
    { ID := 1, Name := "Alice", Email := "alice@example.com", Age := 22 }
    (by decide) rfl (by decide) (by decide)).1

/-- Claim C10: for every state of the in-memory store and every id parameter
that parses as a 32-bit signed integer, `handleDeleteUser` responds with
status 204 and an empty body, whether or not the store held a record with
that id; afterwards the store holds no record with that id, all other records
and the next id are unchanged, and when there was no record the store is
unchanged; so a second Delete of the same id is again 204 and changes
nothing. -/
theorem handleDeleteUser_mock (m : mockStore) (r : Request) (id : Int)
    (hid : parseIDParam r = Except.ok id) :
    (handleDeleteUser mockStore.store m r).2 = { status := 204, body := Body.empty } ∧
      (handleDeleteUser mockStore.store m r).1.users.lookup id = none ∧
      (∀ k : Int, k ≠ id →
        (handleDeleteUser mockStore.store m r).1.users.lookup k = m.users.lookup k) ∧
      (handleDeleteUser mockStore.store m r).1.nextID = m.nextID ∧
      (m.users.lookup id = none → (handleDeleteUser mockStore.store m r).1 = m) ∧
      handleDeleteUser mockStore.store (handleDeleteUser mockStore.store m r).1 r =
        ((handleDeleteUser mockStore.store m r).1, { status := 204, body := Body.empty }) := by
  have hrun : ∀ m' : mockStore, handleDeleteUser mockStore.store m' r =
      ({ users := m'.users.erase id, nextID := m'.nextID },
        { status := 204, body := Body.empty }) := by
    intro m'
    simp only [handleDeleteUser, hid, mockStore.store, mockStore.DeleteUser]
  refine ⟨?_, ?_, ?_, ?_, ?_, ?_⟩
  · rw [hrun]
  · rw [hrun]
    exact Finmap.lookup_erase id m.users
  · intro k hk
    rw [hrun]
    exact Finmap.lookup_erase_ne hk
  · rw [hrun]
  · intro habs
    rw [hrun]
    dsimp only
    rw [erase_of_lookup_eq_none _ _ habs]
  · rw [hrun, hrun]
    dsimp only
    rw [erase_of_lookup_eq_none (m.users.erase id) id (Finmap.lookup_erase id m.users)]

/-- Claim C10 at the request of `TestHandleDeleteUser`: the store holds Alice
under id 1; the Delete answers 204 with an empty body and the store holds no
record under id 1 afterwards. -/
theorem handleDeleteUser_mock_witness :
    (handleDeleteUser mockStore.store
        { users := Finmap.singleton 1
            { ID := 1, Name := "Alice", Email := "alice@example.com", Age := 22 },
          nextID := 2 }
        { id := "1", body := none }).2 = { status := 204, body := Body.empty } ∧
      (handleDeleteUser mockStore.store
        { users := Finmap.singleton 1
            { ID := 1, Name := "Alice", Email := "alice@example.com", Age := 22 },
          nextID := 2 }
        { id := "1", body := none }).1.users.lookup 1 = none :=
  ⟨(handleDeleteUser_mock
      { users := Finmap.singleton 1
          { ID := 1, Name := "Alice", Email := "alice@example.com", Age := 22 },
        nextID := 2 }
      { id := "1", body := none } 1 (by decide)).1,
    (handleDeleteUser_mock
      { users := Finmap.singleton 1
          { ID := 1, Name := "Alice", Email := "alice@example.com", Age := 22 },
        nextID := 2 }
      { id := "1", body := none } 1 (by decide)).2.1⟩

/-! ## Sequences of requests on the in-memory store -/

/-- What `handleCreateUser` does on the in-memory store when the body decodes
and passes validation: 201 with the new user, stored under the next id. -/
theorem handleCreateUser_mock_valid (m : mockStore) (id : String) (req : createUserRequest)
    (h : validateUserInput req.Name req.Email req.Age = []) :
    handleCreateUser mockStore.store m { id := id, body := some req } =
      ({ users := m.users.insert m.nextID
            { ID := m.nextID, Name := req.Name, Email := req.Email, Age := req.Age },
         nextID := wrapInt32 (m.nextID + 1) },
        { status := 201,
          body := Body.user
            { ID := m.nextID, Name := req.Name, Email := req.Email, Age := req.Age } }) := by
  simp only [handleCreateUser, h, List.length_nil, gt_iff_lt, lt_self_iff_false, if_false,
    mockStore.store, mockStore.CreateUser]

/-- Claim C11: round trip on the in-memory store, in any state. If
`handleCreateUser` answers 201 with the user `c`, which it does exactly for a
decoded body that passes validation, then `handleGetUser` with the id
parameter that reads as `c.ID`, served right after, answers 200 with the user
`c` itself, equal in id, name, email and age, and leaves the store as the
Create left it. -/
theorem create_then_get_roundtrip (m : mockStore) (rc rg : Request) (c : User)
    (hcreate : (handleCreateUser mockStore.store m rc).2 =
      { status := 201, body := Body.user c })
    (hid : parseIDParam rg = Except.ok c.ID) :
    handleGetUser mockStore.store (handleCreateUser mockStore.store m rc).1 rg =
        ((handleCreateUser mockStore.store m rc).1, { status := 200, body := Body.user c }) ∧
      ∃ req : createUserRequest, rc.body = some req ∧
        validateUserInput req.Name req.Email req.Age = [] ∧
        c = { ID := m.nextID, Name := req.Name, Email := req.Email, Age := req.Age } := by
  obtain ⟨cid, cbody⟩ := rc
  cases cbody with
  | none =>
    simp [handleCreateUser, httpError] at hcreate
  | some req =>
    by_cases hv : validateUserInput req.Name req.Email req.Age = []
    · rw [handleCreateUser_mock_valid m cid req hv] at hcreate ⊢
      simp only [Response.mk.injEq, Body.user.injEq, true_and] at hcreate
      subst hcreate
      refine ⟨?_, req, rfl, hv, rfl⟩
      simp only [handleGetUser, hid, mockStore.store, mockStore.GetUser, Finmap.lookup_insert]
    · rw [handleCreateUser_of_errors mockStore.store m cid req hv] at hcreate
      simp at hcreate

/-- Claim C11 at the input of `TestHandleGetUser_Found`: Alice is created on
the new store and read back under the id 1. -/
theorem create_then_get_roundtrip_witness :
    handleGetUser mockStore.store
        (handleCreateUser mockStore.store newMockStore
          { id := "",
            body := some { Name := "Alice", Email := "alice@example.com", Age := 22 } }).1
        { id := "1", body := none } =
      ((handleCreateUser mockStore.store newMockStore
          { id := "",
            body := some { Name := "Alice", Email := "alice@example.com", Age := 22 } }).1,
        { status := 200,
          body := Body.user
            { ID := 1, Name := "Alice", Email := "alice@example.com", Age := 22 } }) :=
  (create_then_get_roundtrip newMockStore
    { id := "", body := some { Name := "Alice", Email := "alice@example.com", Age := 22 } }
    { id := "1", body := none }
    { ID := 1, Name := "Alice", Email := "alice@example.com", Age := 22 }
    (by decide) (by decide)).1

/-- The in-memory store after `handleGetUser` is the store before it. -/
theorem handleGetUser_mock_state (m : mockStore) (r : Request) :
    (handleGetUser mockStore.store m r).1 = m := by
  unfold handleGetUser
  cases parseIDParam r with
  | error e => rfl
  | ok id =>
    simp only [mockStore.store, mockStore.GetUser]
    cases m.users.lookup id <;> rfl

/-- The in-memory store after `handleDeleteUser`: as before when the id
parameter does not parse, and without the record of the id otherwise. -/
theorem handleDeleteUser_mock_state (m : mockStore) (r : Request) :
    (handleDeleteUser mockStore.store m r).1 =
      match parseIDParam r with
      | Except.error _ => m
      | Except.ok id => { users := m.users.erase id, nextID := m.nextID } := by
  unfold handleDeleteUser
  cases parseIDParam r <;> rfl

/-- The in-memory store after `handleCreateUser`: with the new user under the
next id when the body decodes and passes validation, and as before
otherwise. -/
theorem handleCreateUser_mock_state (m : mockStore) (r : Request) :
    (handleCreateUser mockStore.store m r).1 =
      match r.body with
      | none => m
      | some req =>
        if validateUserInput req.Name req.Email req.Age = [] then
          { users := m.users.insert m.nextID
              { ID := m.nextID, Name := req.Name, Email := req.Email, Age := req.Age },
            nextID := wrapInt32 (m.nextID + 1) }
        else m := by
  obtain ⟨rid, rbody⟩ := r
  cases rbody with
  | none => rfl
  | some req =>
    by_cases hv : validateUserInput req.Name req.Email req.Age = []
    · rw [handleCreateUser_mock_valid m rid req hv]
      simp only [hv, if_true]
    · rw [handleCreateUser_of_errors mockStore.store m rid req hv]
      simp only [hv, if_false]

/-- The in-memory store after `handleUpdateUser`: with the user of the request
under the id when the id parameter parses, the body decodes and passes
validation and the store holds a record for the id, and as before
otherwise. -/
theorem handleUpdateUser_mock_state (m : mockStore) (r : Request) :
    (handleUpdateUser mockStore.store m r).1 =
      match parseIDParam r, r.body with
      | Except.ok id, some req =>
        if validateUserInput req.Name req.Email req.Age = [] ∧
            (m.users.lookup id).isSome = true then
          { users := m.users.insert id
              { ID := id, Name := req.Name, Email := req.Email, Age := req.Age },
            nextID := m.nextID }
        else m
      | _, _ => m := by
  unfold handleUpdateUser
  cases parseIDParam r with
  | error e => rfl
  | ok id =>
    cases r.body with
    | none => rfl
    | some req =>
      dsimp only
      by_cases hv : validateUserInput req.Name req.Email req.Age = []
      · simp only [hv, List.length_nil, gt_iff_lt, lt_self_iff_false, if_false,
          mockStore.store, mockStore.UpdateUser, true_and]
        cases m.users.lookup id <;> simp [StoreError.isErrNoRows]
      · rw [if_pos (List.length_pos.mpr hv)]
        simp only [hv, false_and, if_false]

/-- A request served on the in-memory store keeps the property that every
stored user passes validation. -/
theorem serve_keeps_valid (m : mockStore) (route : Route) (r : Request)
    (hm : ∀ (k : Int) (u : User), m.users.lookup k = some u →
      validateUserInput u.Name u.Email u.Age = []) :
    ∀ (k : Int) (u : User), (serve mockStore.store m route r).1.users.lookup k = some u →
      validateUserInput u.Name u.Email u.Age = [] := by
  intro k u hk
  cases route with
  | health => exact hm k u hk
  | listUsers => exact hm k u hk
  | getUser =>
    simp only [serve, handleGetUser_mock_state] at hk
    exact hm k u hk
  | deleteUser =>
    simp only [serve, handleDeleteUser_mock_state] at hk
    cases hp : parseIDParam r with
    | error e => rw [hp] at hk; exact hm k u hk
    | ok id =>
      rw [hp] at hk
      dsimp only at hk
      by_cases hkid : k = id
      · subst hkid
        rw [Finmap.lookup_erase] at hk
        exact absurd hk (by simp)
      · rw [Finmap.lookup_erase_ne hkid] at hk
        exact hm k u hk
  | createUser =>
    simp only [serve, handleCreateUser_mock_state] at hk
    cases hb : r.body with
    | none => rw [hb] at hk; exact hm k u hk
    | some req =>
      rw [hb] at hk
      dsimp only at hk
      by_cases hv : validateUserInput req.Name req.Email req.Age = []
      · rw [if_pos hv] at hk
        dsimp only at hk
        by_cases hkid : k = m.nextID
        · subst hkid
          rw [Finmap.lookup_insert] at hk
          simp only [Option.some.injEq] at hk
          subst hk
          exact hv
        · rw [Finmap.lookup_insert_of_ne _ hkid] at hk
          exact hm k u hk
      · rw [if_neg hv] at hk
        exact hm k u hk
  | updateUser =>
    simp only [serve, handleUpdateUser_mock_state] at hk
    cases hp : parseIDParam r with
    | error e => rw [hp] at hk; exact hm k u hk
    | ok id =>
      cases hb : r.body with
      | none => rw [hp, hb] at hk; exact hm k u hk
      | some req =>
        rw [hp, hb] at hk
        dsimp only at hk
        by_cases hv : validateUserInput req.Name req.Email req.Age = [] ∧
            (m.users.lookup id).isSome = true
        · rw [if_pos hv] at hk
          dsimp only at hk
          by_cases hkid : k = id
          · subst hkid
            rw [Finmap.lookup_insert] at hk
            simp only [Option.some.injEq] at hk
            subst hk
            exact hv.1
          · rw [Finmap.lookup_insert_of_ne _ hkid] at hk
            exact hm k u hk
        · rw [if_neg hv] at hk
          exact hm k u hk

/-- A sequence of requests served on the in-memory store keeps the property
that every stored user passes validation. -/
theorem serveAll_keeps_valid (reqs : List (Route × Request)) (m : mockStore)
    (hm : ∀ (k : Int) (u : User), m.users.lookup k = some u →
      validateUserInput u.Name u.Email u.Age = []) :
    ∀ (k : Int) (u : User), (serveAll mockStore.store m reqs).users.lookup k = some u →
      validateUserInput u.Name u.Email u.Age = [] := by
  induction reqs generalizing m with
  | nil => exact hm
  | cons q rest ih =>
    simp only [serveAll, List.foldl_cons]
    exact ih _ (serve_keeps_valid m q.1 q.2 hm)

/-- Claim C12: starting from the empty in-memory store, after any finite
sequence of Create, Update, Delete, Get, List and Health requests, with any
bodies and id parameters, every user held in the store satisfies the
validation constraints: `validateUserInput(u.Name, u.Email, u.Age)` is empty
for every stored user `u`. -/
theorem stored_users_valid (reqs : List (Route × Request)) (k : Int) (u : User)
    (hk : (serveAll mockStore.store newMockStore reqs).users.lookup k = some u) :
    validateUserInput u.Name u.Email u.Age = [] :=
  serveAll_keeps_valid reqs newMockStore
    (fun k' u' h' => by
      rw [show newMockStore.users = ∅ from rfl, Finmap.lookup_empty] at h'
      exact absurd h' (by simp))
    k u hk

/-- Claim C12 at a sequence of four requests: a Create that is rejected, a
Create of Alice, an Update of Alice that is rejected and an Update that is
accepted; the record under id 1 passes validation. -/
theorem stored_users_valid_witness :
    validateUserInput "Alice Updated" "alice2@example.com" 25 = [] :=
  stored_users_valid
    [(Route.createUser, { id := "", body := some { Name := "", Email := "", Age := 10 } }),
     (Route.createUser,
       { id := "", body := some { Name := "Alice", Email := "alice@example.com", Age := 22 } }),
     (Route.updateUser, { id := "1", body := some { Name := " ", Email := "a", Age := 3 } }),
     (Route.updateUser,
       { id := "1",
         body := some { Name := "Alice Updated", Email := "alice2@example.com", Age := 25 } })]
    1 { ID := 1, Name := "Alice Updated", Email := "alice2@example.com", Age := 25 }
    (by decide)

/-! ## The id parameter -/

/-- The value of a sequence of digits is at least the value it continues
from. -/
theorem le_decimalValueFrom (ds : List Char) (n : Nat) : n ≤ decimalValueFrom n ds := by
  induction ds generalizing n with
  | nil => exact Nat.le_refl n
  | cons c cs ih =>
    have h := ih (10 * n + (c.toNat - '0'.toNat))
    simp only [decimalValueFrom, List.foldl_cons] at h ⊢
    omega

/-- The digit loop of `ParseUint` with the 32-bit bound, from a value within
the bound: on decimal digits only, it returns their value, or a range error
with the bound when the value exceeds it; otherwise it returns a syntax error
with 0 or a range error with the bound. -/
theorem ParseUint_loop_spec (ds : List Char) (n : Nat) (hn : n ≤ 4294967295) :
    (ds.all isDecimalDigit = true →
        ParseUint.loop 4294967295 ds n =
          if decimalValueFrom n ds ≤ 4294967295 then (decimalValueFrom n ds, none)
          else (4294967295, some NumError.ErrRange)) ∧
      (ds.all isDecimalDigit = false →
        ParseUint.loop 4294967295 ds n = (0, some NumError.ErrSyntax) ∨
          ParseUint.loop 4294967295 ds n = (4294967295, some NumError.ErrRange)) := by
  induction ds generalizing n with
  | nil =>
    refine ⟨fun _ => ?_, fun h => ?_⟩
    · simp only [ParseUint.loop, decimalValueFrom, List.foldl_nil, if_pos hn]
    · simp at h
  | cons c cs ih =>
    have h0 : '0'.toNat = 48 := by decide
    have h9 : '9'.toNat = 57 := by decide
    by_cases hd : '0'.toNat ≤ c.toNat ∧ c.toNat ≤ '9'.toNat
    · have hdig : isDecimalDigit c = true := by
        simp only [isDecimalDigit, Bool.and_eq_true, decide_eq_true_eq]
        exact hd
      have hcut : ¬ n ≥ (2 ^ 64 - 1) / 10 + 1 := by
        norm_num
        omega
      have h10 : n * 10 % 2 ^ 64 = n * 10 := Nat.mod_eq_of_lt (by norm_num; omega)
      have h1 : (n * 10 + (c.toNat - '0'.toNat)) % 2 ^ 64 = n * 10 + (c.toNat - '0'.toNat) :=
        Nat.mod_eq_of_lt (by norm_num; omega)
      have hval : decimalValueFrom n (c :: cs) =
          decimalValueFrom (n * 10 + (c.toNat - '0'.toNat)) cs := by
        simp only [decimalValueFrom, List.foldl_cons, Nat.mul_comm]
      have hall : (c :: cs).all isDecimalDigit = cs.all isDecimalDigit := by
        simp only [List.all_cons, hdig, Bool.true_and]
      rw [hval, hall]
      by_cases hover : n * 10 + (c.toNat - '0'.toNat) > 4294967295
      · have hloop : ParseUint.loop 4294967295 (c :: cs) n =
            (4294967295, some NumError.ErrRange) := by
          simp only [ParseUint.loop, if_pos hd, if_neg hcut, h10, h1]
          rw [if_pos (Or.inr hover)]
        have hbig := le_decimalValueFrom cs (n * 10 + (c.toNat - '0'.toNat))
        rw [hloop]
        refine ⟨fun _ => ?_, fun _ => Or.inr rfl⟩
        rw [if_neg (by omega)]
      · have hloop : ParseUint.loop 4294967295 (c :: cs) n =
            ParseUint.loop 4294967295 cs (n * 10 + (c.toNat - '0'.toNat)) := by
          simp only [ParseUint.loop, if_pos hd, if_neg hcut, h10, h1]
          rw [if_neg (by omega)]
        rw [hloop]
        exact ih _ (by omega)
    · have hdig : isDecimalDigit c = false := by
        simp only [isDecimalDigit, Bool.and_eq_false_iff, decide_eq_false_iff_not]
        by_contra hcon
        exact hd ⟨by omega, by omega⟩
      have hloop : ParseUint.loop 4294967295 (c :: cs) n = (0, some NumError.ErrSyntax) := by
        simp only [ParseUint.loop, if_neg hd]
      rw [hloop]
      refine ⟨fun h => ?_, fun _ => Or.inl rfl⟩
      simp only [List.all_cons, hdig, Bool.false_and] at h
      exact absurd h (by simp)

/-- What `ParseUint` returns with bit size 32 on a sequence of decimal
digits: its value, or a range error with `2^32 - 1` when the value exceeds
it. -/
theorem ParseUint_of_decimal (cs : List Char) (v : Nat) (h : decimalValue cs = some v) :
    ParseUint (String.mk cs) 32 =
      if v ≤ 4294967295 then (v, none) else (4294967295, some NumError.ErrRange) := by
  unfold decimalValue at h
  split at h
  · rename_i hc
    simp only [Option.some.injEq] at h
    subst h
    have hne : String.mk cs ≠ "" := fun hs => hc.1 (congrArg String.data hs)
    have hmax : 2 ^ 32 - 1 = 4294967295 := by norm_num
    simp only [ParseUint, if_neg hne, hmax]
    exact (ParseUint_loop_spec cs 0 (by omega)).1 hc.2
  · exact absurd h (by simp)

/-- What `ParseUint` returns with bit size 32 on anything else: a syntax error
with 0, or a range error with `2^32 - 1`. -/
theorem ParseUint_of_not_decimal (cs : List Char) (h : decimalValue cs = none) :
    ParseUint (String.mk cs) 32 = (0, some NumError.ErrSyntax) ∨
      ParseUint (String.mk cs) 32 = (4294967295, some NumError.ErrRange) := by
  by_cases hnil : cs = []
  · subst hnil
    exact Or.inl rfl
  · have hne : String.mk cs ≠ "" := fun hs => hnil (congrArg String.data hs)
    have hmax : 2 ^ 32 - 1 = 4294967295 := by norm_num
    have hall : cs.all isDecimalDigit = false := by
      unfold decimalValue at h
      split at h
      · exact absurd h (by simp)
      · rename_i hc
        cases hb : cs.all isDecimalDigit with
        | false => rfl
        | true => exact absurd ⟨hnil, hb⟩ hc
    simp only [ParseUint, if_neg hne, hmax]
    exact (ParseUint_loop_spec cs 0 (by omega)).2 hall

/-- What `ParseInt` returns with bit size 32 on a string whose digits part,
after the sign if there is one, is `ds`: the signed value of the digits when
they are a decimal number and the value lies in the 32-bit signed range, and
an error otherwise. -/
theorem ParseInt_sign (s : String) (c : Char) (cs ds : List Char) (neg : Bool)
    (hs : s.data = c :: cs) (hneg : (c == '-') = neg)
    (hrest : (if (c == '+') = true ∨ (c == '-') = true then String.mk cs else s) =
      String.mk ds) :
    (∀ v : Nat, decimalValue ds = some v →
        if -2147483648 ≤ (if neg = true then -(v : Int) else (v : Int)) ∧
            (if neg = true then -(v : Int) else (v : Int)) ≤ 2147483647 then
          ParseInt s 32 = ((if neg = true then -(v : Int) else (v : Int)), none)
        else ∃ (n : Int) (e : NumError), ParseInt s 32 = (n, some e)) ∧
      (decimalValue ds = none → ∃ (n : Int) (e : NumError), ParseInt s 32 = (n, some e)) := by
  have hcut : (2 : Nat) ^ (32 - 1) = 2147483648 := by norm_num
  have hPI : ∀ (un : Nat) (err : Option NumError), ParseUint (String.mk ds) 32 = (un, err) →
      ParseInt s 32 =
        match err with
        | some NumError.ErrSyntax => (0, some NumError.ErrSyntax)
        | _ =>
          if ¬ neg = true ∧ un ≥ 2147483648 then
            (((2147483648 : Nat) : Int) - 1, some NumError.ErrRange)
          else if neg = true ∧ un > 2147483648 then
            (-((2147483648 : Nat) : Int), some NumError.ErrRange)
          else (if neg = true then -(un : Int) else (un : Int), none) := by
    intro un err hpu
    have hrest' := hrest
    rw [hneg] at hrest'
    simp only [ParseInt, hs, hneg, hrest', hpu, hcut]
    cases err with
    | none => rfl
    | some e => cases e <;> rfl
  refine ⟨fun v hv => ?_, fun hnone => ?_⟩
  · have hpu := ParseUint_of_decimal ds v hv
    by_cases hmax : v ≤ 4294967295
    · rw [if_pos hmax] at hpu
      have h := hPI v none hpu
      dsimp only at h
      cases neg with
      | false =>
        simp only [Bool.false_eq_true, if_false, not_false_eq_true, true_and, false_and] at h ⊢
        by_cases hv31 : v ≥ 2147483648
        · rw [if_pos hv31] at h
          rw [if_neg (by omega)]
          exact ⟨_, _, h⟩
        · rw [if_neg hv31] at h
          rw [if_pos (by omega)]
          exact h
      | true =>
        simp only [if_true, not_true_eq_false, false_and, if_false, true_and] at h ⊢
        by_cases hv31 : v > 2147483648
        · rw [if_pos hv31] at h
          rw [if_neg (by omega)]
          exact ⟨_, _, h⟩
        · rw [if_neg hv31] at h
          rw [if_pos (by omega)]
          exact h
    · rw [if_neg hmax] at hpu
      have h := hPI _ _ hpu
      dsimp only at h
      cases neg with
      | false =>
        simp only [Bool.false_eq_true, if_false, not_false_eq_true, true_and, false_and] at h ⊢
        rw [if_pos (by omega)] at h
        rw [if_neg (by omega)]
        exact ⟨_, _, h⟩
      | true =>
        simp only [if_true, not_true_eq_false, false_and, if_false, true_and] at h ⊢
        rw [if_pos (by omega)] at h
        rw [if_neg (by omega)]
        exact ⟨_, _, h⟩
  · rcases ParseUint_of_not_decimal ds hnone with hpu | hpu
    · exact ⟨_, _, hPI _ _ hpu⟩
    · have h := hPI _ _ hpu
      dsimp only at h
      cases neg with
      | false =>
        simp only [Bool.false_eq_true, if_false, not_false_eq_true, true_and, false_and] at h
        rw [if_pos (by omega)] at h
        exact ⟨_, _, h⟩
      | true =>
        simp only [if_true, not_true_eq_false, false_and, if_false, true_and] at h
        rw [if_pos (by omega)] at h
        exact ⟨_, _, h⟩

/-- The conversion `int32(x)` keeps a value of the 32-bit signed range. -/
theorem wrapInt32_of_int32 (x : Int) (hlo : -2147483648 ≤ x) (hhi : x ≤ 2147483647) :
    wrapInt32 x = x := by
  unfold wrapInt32
  norm_num
  omega

/-- The function `parseIDParam` against the specification of the id parameter,
for a string whose sign and digits part are known. -/
theorem parseIDParam_sign (r : Request) (c : Char) (cs ds : List Char) (neg : Bool)
    (hs : r.id.data = c :: cs) (hneg : (c == '-') = neg)
    (hrest : (if (c == '+') = true ∨ (c == '-') = true then String.mk cs else r.id) =
      String.mk ds)
    (hnum : numeralValue r.id =
      (decimalValue ds).map (fun n : Nat => if neg = true then -(n : Int) else (n : Int))) :
    (∀ v : Int, int32Numeral r.id = some v → parseIDParam r = Except.ok v) ∧
      (int32Numeral r.id = none → ∃ e : NumError, parseIDParam r = Except.error e) := by
  have hspec := ParseInt_sign r.id c cs ds neg hs hneg hrest
  cases hdv : decimalValue ds with
  | none =>
    obtain ⟨n, e, hpi⟩ := hspec.2 hdv
    have hnone : int32Numeral r.id = none := by
      simp only [int32Numeral, hnum, hdv, Option.map_none']
    refine ⟨fun v hv => ?_, fun _ => ⟨e, ?_⟩⟩
    · rw [hnone] at hv
      exact absurd hv (by simp)
    · simp only [parseIDParam, hpi]
  | some w =>
    have hw := hspec.1 w hdv
    have hnv : int32Numeral r.id =
        if -2147483648 ≤ (if neg = true then -(w : Int) else (w : Int)) ∧
            (if neg = true then -(w : Int) else (w : Int)) ≤ 2147483647 then
          some (if neg = true then -(w : Int) else (w : Int))
        else none := by
      simp only [int32Numeral, hnum, hdv, Option.map_some']
    by_cases hr : -2147483648 ≤ (if neg = true then -(w : Int) else (w : Int)) ∧
        (if neg = true then -(w : Int) else (w : Int)) ≤ 2147483647
    · rw [if_pos hr] at hw hnv
      refine ⟨fun v hv => ?_, fun hn => ?_⟩
      · rw [hnv] at hv
        simp only [Option.some.injEq] at hv
        subst hv
        simp only [parseIDParam, hw]
        rw [wrapInt32_of_int32 _ hr.1 hr.2]
      · rw [hnv] at hn
        exact absurd hn (by simp)
    · rw [if_neg hr] at hw hnv
      obtain ⟨n, e, hpi⟩ := hw
      refine ⟨fun v hv => ?_, fun _ => ⟨e, ?_⟩⟩
      · rw [hnv] at hv
        exact absurd hv (by simp)
      · simp only [parseIDParam, hpi]

/-- The function `parseIDParam` refines the specification of the id parameter:
it returns the value of the parameter when the parameter is an optionally
signed decimal numeral of the 32-bit signed range, and an error for every
other string. -/
theorem parseIDParam_spec (r : Request) :
    (∀ v : Int, int32Numeral r.id = some v → parseIDParam r = Except.ok v) ∧
      (int32Numeral r.id = none → ∃ e : NumError, parseIDParam r = Except.error e) := by
  cases hs : r.id.data with
  | nil =>
    have hnone : int32Numeral r.id = none := by
      simp only [int32Numeral, numeralValue, hs]
    refine ⟨fun v hv => ?_, fun _ => ⟨NumError.ErrSyntax, ?_⟩⟩
    · rw [hnone] at hv
      exact absurd hv (by simp)
    · simp only [parseIDParam, ParseInt, hs]
  | cons c cs =>
    by_cases hplus : c = '+'
    · subst hplus
      refine parseIDParam_sign r '+' cs cs false hs (by decide) ?_ ?_
      · simp
      · simp [numeralValue, hs]
    · by_cases hminus : c = '-'
      · subst hminus
        refine parseIDParam_sign r '-' cs cs true hs (by decide) ?_ ?_
        · simp
        · simp [numeralValue, hs]
      · have hid : r.id = String.mk (c :: cs) := by
          rw [← hs]
        refine parseIDParam_sign r c cs (c :: cs) false hs ?_ ?_ ?_
        · simpa using hminus
        · simp [hplus, hminus, hid]
        · simp [numeralValue, hs, hplus, hminus]

/-- With an id parameter that does not parse, `handleGetUser`,
`handleUpdateUser` and `handleDeleteUser` answer 400 "invalid id" and return
the state of the store as it was, whatever the store is. -/
theorem handlers_of_invalid_id {σ : Type} (store : Store σ) (s : σ) (r : Request)
    (e : NumError) (h : parseIDParam r = Except.error e) :
    handleGetUser store s r = (s, httpError "invalid id" 400) ∧
      handleUpdateUser store s r = (s, httpError "invalid id" 400) ∧
      handleDeleteUser store s r = (s, httpError "invalid id" 400) := by
  refine ⟨?_, ?_, ?_⟩
  · simp only [handleGetUser, h]
  · simp only [handleUpdateUser, h]
  · simp only [handleDeleteUser, h]

/-- With an id parameter that parses, the state after `handleGetUser` is the
state after the call `GetUser` of the store with the parsed id. -/
theorem handleGetUser_state {σ : Type} (store : Store σ) (s : σ) (r : Request) (id : Int)
    (h : parseIDParam r = Except.ok id) :
    (handleGetUser store s r).1 = (store.GetUser s id).2 := by
  simp only [handleGetUser, h]
  rcases store.GetUser s id with ⟨res, s'⟩
  cases res with
  | error err => cases err <;> rfl
  | ok u => rfl

/-- With an id parameter that parses, the state after `handleDeleteUser` is
the state after the call `DeleteUser` of the store with the parsed id. -/
theorem handleDeleteUser_state {σ : Type} (store : Store σ) (s : σ) (r : Request) (id : Int)
    (h : parseIDParam r = Except.ok id) :
    (handleDeleteUser store s r).1 = (store.DeleteUser s id).2 := by
  simp only [handleDeleteUser, h]
  rcases store.DeleteUser s id with ⟨res, s'⟩
  cases res <;> rfl

/-- With an id parameter that parses and a decoded body that passes
validation, the state after `handleUpdateUser` is the state after the call
`UpdateUser` of the store with the parsed id and the fields of the body. -/
theorem handleUpdateUser_state {σ : Type} (store : Store σ) (s : σ) (r : Request) (id : Int)
    (req : createUserRequest) (h : parseIDParam r = Except.ok id) (hbody : r.body = some req)
    (hvalid : validateUserInput req.Name req.Email req.Age = []) :
    (handleUpdateUser store s r).1 =
      (store.UpdateUser s
        { ID := id, Name := req.Name, Email := req.Email, Age := req.Age }).2 := by
  simp only [handleUpdateUser, h, hbody, hvalid, List.length_nil, gt_iff_lt,
    lt_self_iff_false, if_false]
  rcases store.UpdateUser s
    { ID := id, Name := req.Name, Email := req.Email, Age := req.Age } with ⟨res, s'⟩
  cases res with
  | error err => cases err <;> rfl
  | ok u => rfl

/-- Whatever the store, `handleUpdateUser` with a decoded body that fails
validation, after an id parameter that parses, answers 400 with the errors and
returns the state of the store as it was. -/
theorem handleUpdateUser_of_errors {σ : Type} (store : Store σ) (s : σ) (r : Request)
    (id : Int) (req : createUserRequest) (hid : parseIDParam r = Except.ok id)
    (hbody : r.body = some req) (h : validateUserInput req.Name req.Email req.Age ≠ []) :
    handleUpdateUser store s r =
      (s, { status := 400,
            body := Body.errors { Errors := validateUserInput req.Name req.Email req.Age } }) := by
  simp only [handleUpdateUser, hid, hbody, if_pos (List.length_pos.mpr h)]

/-- Whatever the store, `handleUpdateUser` with a body that does not decode,
after an id parameter that parses, answers 400 "invalid JSON body" and returns
the state of the store as it was. -/
theorem handleUpdateUser_of_no_body {σ : Type} (store : Store σ) (s : σ) (r : Request)
    (id : Int) (hid : parseIDParam r = Except.ok id) (hbody : r.body = none) :
    handleUpdateUser store s r = (s, httpError "invalid JSON body" 400) := by
  simp only [handleUpdateUser, hid, hbody]

/-- Refutation of claim C13 as stated: the id parameter "1" is a decimal
numeral of the 32-bit signed range, and `handleUpdateUser` with a body that
does not decode answers 400 "invalid JSON body" without a call of the store:
the list of recorded calls stays empty. -/
theorem handleUpdateUser_numeral_id_without_store_call :
    int32Numeral "1" = some 1 ∧
      handleUpdateUser (recording mockStore.store) (newMockStore, [])
          { id := "1", body := none } =
        ((newMockStore, []), httpError "invalid JSON body" 400) := by
  decide

/-- Claim C13, amended: for Get, Update and Delete the id parameter is read as
a base-10 32-bit signed integer. For every id string that is not an optionally
signed decimal numeral with value from -2147483648 to 2147483647, such as "",
"abc", "1.5" and "2147483648", the handler answers 400 "invalid id" and makes
no store call. For every string that is such a numeral, Get and Delete call
the store once, with exactly that integer, and so does Update when the body
decodes and passes validation; otherwise, when the body does not decode or
fails validation, Update makes no store call: it answers 400 and the state and
the recorded calls are as before. -/
theorem id_param_parsed {σ : Type} (store : Store σ) (s : σ) (calls : List StoreCall)
    (r : Request) :
    (int32Numeral r.id = none →
        handleGetUser (recording store) (s, calls) r =
            ((s, calls), httpError "invalid id" 400) ∧
          handleUpdateUser (recording store) (s, calls) r =
            ((s, calls), httpError "invalid id" 400) ∧
          handleDeleteUser (recording store) (s, calls) r =
            ((s, calls), httpError "invalid id" 400)) ∧
      (∀ v : Int, int32Numeral r.id = some v →
        (handleGetUser (recording store) (s, calls) r).1 =
            ((store.GetUser s v).2, calls ++ [StoreCall.GetUser v]) ∧
          (handleDeleteUser (recording store) (s, calls) r).1 =
            ((store.DeleteUser s v).2, calls ++ [StoreCall.DeleteUser v]) ∧
          (∀ req : createUserRequest, r.body = some req →
            validateUserInput req.Name req.Email req.Age = [] →
            (handleUpdateUser (recording store) (s, calls) r).1 =
              ((store.UpdateUser s
                  { ID := v, Name := req.Name, Email := req.Email, Age := req.Age }).2,
                calls ++ [StoreCall.UpdateUser
                  { ID := v, Name := req.Name, Email := req.Email, Age := req.Age }])) ∧
          (r.body = none →
            handleUpdateUser (recording store) (s, calls) r =
              ((s, calls), httpError "invalid JSON body" 400)) ∧
          ∀ req : createUserRequest, r.body = some req →
            validateUserInput req.Name req.Email req.Age ≠ [] →
            handleUpdateUser (recording store) (s, calls) r =
              ((s, calls),
                { status := 400,
                  body := Body.errors
                    { Errors := validateUserInput req.Name req.Email req.Age } })) ∧
      int32Numeral "" = none ∧ int32Numeral "abc" = none ∧ int32Numeral "1.5" = none ∧
      int32Numeral "2147483648" = none ∧ int32Numeral "-2147483648" = some (-2147483648) ∧
      int32Numeral "2147483647" = some 2147483647 := by
  refine ⟨fun hnone => ?_, fun v hv => ?_, by decide, by decide, by decide, by decide,
    by decide, by decide⟩
  · obtain ⟨e, he⟩ := (parseIDParam_spec r).2 hnone
    exact handlers_of_invalid_id (recording store) (s, calls) r e he
  · have hp := (parseIDParam_spec r).1 v hv
    refine ⟨?_, ?_, fun req hbody hvalid => ?_, fun hbody => ?_, fun req hbody hv => ?_⟩
    · rw [handleGetUser_state (recording store) (s, calls) r v hp]
      rfl
    · rw [handleDeleteUser_state (recording store) (s, calls) r v hp]
      rfl
    · rw [handleUpdateUser_state (recording store) (s, calls) r v req hp hbody hvalid]
      rfl
    · exact handleUpdateUser_of_no_body (recording store) (s, calls) r v hp hbody
    · exact handleUpdateUser_of_errors (recording store) (s, calls) r v req hp hbody hv

/-- The amended claim C13 at the largest id, on the in-memory store: the Get
calls the store with 2147483647. -/
theorem id_param_parsed_witness :
    (handleGetUser (recording mockStore.store) (newMockStore, [])
        { id := "2147483647", body := none }).1 =
      (newMockStore, [StoreCall.GetUser 2147483647]) :=
  ((id_param_parsed mockStore.store newMockStore [] { id := "2147483647", body := none }).2.1
    2147483647 (by decide)).1

/-! ## Listing the users -/

/-- The list `sortedKeys s` is the insertion sort of any list of the keys. -/
theorem sortedKeys_eq (s : Finset Int) (l : List Int) (hl : s.val = (l : Multiset Int)) :
    sortedKeys s = l.insertionSort (fun a b => a ≤ b) := by
  unfold sortedKeys
  rw [hl]
  rfl

/-- The list `sortedKeys s` holds exactly the keys of `s`. -/
theorem mem_sortedKeys (s : Finset Int) (k : Int) : k ∈ sortedKeys s ↔ k ∈ s := by
  obtain ⟨l, hl⟩ := Quot.exists_rep s.val
  rw [sortedKeys_eq s l hl.symm, (List.perm_insertionSort _ l).mem_iff, ← Finset.mem_val,
    ← hl]
  rfl

/-- The list `sortedKeys s` is strictly ascending. -/
theorem sortedKeys_sorted (s : Finset Int) : (sortedKeys s).Sorted (fun a b => a < b) := by
  obtain ⟨l, hl⟩ := Quot.exists_rep s.val
  have hnodup : l.Nodup := by
    have h := s.nodup
    rw [← hl] at h
    exact h
  rw [sortedKeys_eq s l hl.symm]
  have hsorted : (l.insertionSort (fun a b => a ≤ b)).Sorted (fun a b => a ≤ b) :=
    List.sorted_insertionSort _ l
  have hnd : (l.insertionSort (fun a b => a ≤ b)).Nodup :=
    (List.perm_insertionSort _ l).nodup_iff.mpr hnodup
  exact List.Sorted.lt_of_le hsorted hnd

/-- The list `sortedKeys s` has as many entries as `s` has keys. -/
theorem length_sortedKeys (s : Finset Int) : (sortedKeys s).length = s.card := by
  obtain ⟨l, hl⟩ := Quot.exists_rep s.val
  rw [sortedKeys_eq s l hl.symm, (List.perm_insertionSort _ l).length_eq, Finset.card,
    ← hl]
  rfl

/-- A call of an operation of the in-memory store keeps the property that
every user is stored under its own `ID`. -/
theorem call_keeps_ids (m : mockStore) (c : StoreCall)
    (hm : ∀ (k : Int) (u : User), m.users.lookup k = some u → u.ID = k) :
    ∀ (k : Int) (u : User), (m.call c).users.lookup k = some u → u.ID = k := by
  intro k u hk
  cases c with
  | ListUsers => exact hm k u hk
  | GetUser id =>
    simp only [mockStore.call, mockStore.GetUser] at hk
    cases hl : m.users.lookup id with
    | none => rw [hl] at hk; exact hm k u hk
    | some v => rw [hl] at hk; exact hm k u hk
  | DeleteUser id =>
    simp only [mockStore.call, mockStore.DeleteUser] at hk
    by_cases hkid : k = id
    · subst hkid
      rw [Finmap.lookup_erase] at hk
      exact absurd hk (by simp)
    · rw [Finmap.lookup_erase_ne hkid] at hk
      exact hm k u hk
  | CreateUser arg =>
    simp only [mockStore.call, mockStore.CreateUser] at hk
    by_cases hkid : k = m.nextID
    · subst hkid
      rw [Finmap.lookup_insert] at hk
      simp only [Option.some.injEq] at hk
      rw [← hk]
    · rw [Finmap.lookup_insert_of_ne _ hkid] at hk
      exact hm k u hk
  | UpdateUser arg =>
    simp only [mockStore.call, mockStore.UpdateUser] at hk
    cases hl : m.users.lookup arg.ID with
    | none => rw [hl] at hk; exact hm k u hk
    | some v =>
      rw [hl] at hk
      dsimp only at hk
      by_cases hkid : k = arg.ID
      · subst hkid
        rw [Finmap.lookup_insert] at hk
        simp only [Option.some.injEq] at hk
        rw [← hk]
      · rw [Finmap.lookup_insert_of_ne _ hkid] at hk
        exact hm k u hk

/-- After any sequence of calls of its operations, the in-memory store holds
every user under its own `ID`. -/
theorem after_ids (calls : List StoreCall) :
    ∀ (k : Int) (u : User), (mockStore.after calls).users.lookup k = some u → u.ID = k := by
  have hfold : ∀ (cs : List StoreCall) (m : mockStore),
      (∀ (k : Int) (u : User), m.users.lookup k = some u → u.ID = k) →
      ∀ (k : Int) (u : User), (cs.foldl mockStore.call m).users.lookup k = some u →
        u.ID = k := by
    intro cs
    induction cs with
    | nil => intro m hm; exact hm
    | cons c rest ih =>
      intro m hm
      rw [List.foldl_cons]
      exact ih _ (call_keeps_ids m c hm)
  refine hfold calls newMockStore (fun k u h => ?_)
  rw [show newMockStore.users = ∅ from rfl, Finmap.lookup_empty] at h
  exact absurd h (by simp)

/-- Reading the users of a list of keys that the map holds, in a map that
holds every user under its own `ID`, gives users whose `ID`s are the keys. -/
theorem map_ID_filterMap_lookup (users : Finmap (fun _ : Int => User))
    (hm : ∀ (k : Int) (u : User), users.lookup k = some u → u.ID = k) (l : List Int)
    (hl : ∀ k ∈ l, k ∈ users) :
    (l.filterMap (fun k => users.lookup k)).map (fun u => u.ID) = l := by
  induction l with
  | nil => rfl
  | cons k rest ih =>
    obtain ⟨u, hu⟩ := Finmap.mem_iff.mp (hl k (List.mem_cons_self k rest))
    have hcons : (k :: rest).filterMap (fun k => users.lookup k) =
        u :: rest.filterMap (fun k => users.lookup k) :=
      List.filterMap_cons_some hu
    rw [hcons, List.map_cons, hm k u hu,
      ih (fun k' hk' => hl k' (List.mem_cons_of_mem k hk'))]

/-- Two arrangements of the same users with the same list of `ID`s, the `ID`s
pairwise distinct, are the same list. -/
theorem eq_of_perm_of_map_ID_eq (l₁ l₂ : List User) (hp : l₁.Perm l₂)
    (hmap : l₁.map (fun u => u.ID) = l₂.map (fun u => u.ID))
    (hnd : (l₁.map (fun u => u.ID)).Nodup) : l₁ = l₂ := by
  induction l₁ generalizing l₂ with
  | nil => exact (List.Perm.nil_eq hp)
  | cons a t ih =>
    cases l₂ with
    | nil => exact absurd hp.symm (List.not_perm_nil_cons a t)
    | cons b t' =>
      simp only [List.map_cons, List.cons.injEq] at hmap
      rw [List.map_cons, List.nodup_cons] at hnd
      have hb : b ∈ a :: t := hp.symm.subset (List.mem_cons_self b t')
      have hab : a = b := by
        rcases List.mem_cons.mp hb with h | h
        · exact h.symm
        · exact absurd (hmap.1 ▸ List.mem_map_of_mem (fun u : User => u.ID) h) hnd.1
      subst hab
      rw [ih t' (List.Perm.cons_inv hp) hmap.2 hnd.2]

/-- Users of pairwise distinct `ID`s have one arrangement sorted by `ID`
only. -/
theorem eq_of_perm_of_sorted_ID (l₁ l₂ : List User) (hp : l₁.Perm l₂)
    (h₁ : l₁.Sorted (fun a b => a.ID ≤ b.ID)) (h₂ : l₂.Sorted (fun a b => a.ID ≤ b.ID))
    (hnd : (l₁.map (fun u => u.ID)).Nodup) : l₁ = l₂ := by
  have hmap : l₁.map (fun u => u.ID) = l₂.map (fun u => u.ID) :=
    List.eq_of_perm_of_sorted (hp.map _) (List.pairwise_map.mpr h₁) (List.pairwise_map.mpr h₂)
  exact eq_of_perm_of_map_ID_eq l₁ l₂ hp hmap hnd

/-- The list `sortByID l` is an arrangement of `l`. -/
theorem perm_sortByID (l : List User) : (sortByID l).Perm l :=
  List.perm_insertionSort _ l

/-- The list `sortByID l` is sorted by `ID`. -/
theorem sorted_sortByID (l : List User) : (sortByID l).Sorted (fun a b => a.ID ≤ b.ID) := by
  haveI : IsTotal User (fun a b => a.ID ≤ b.ID) := ⟨fun a b => le_total a.ID b.ID⟩
  haveI : IsTrans User (fun a b => a.ID ≤ b.ID) := ⟨fun _ _ _ hab hbc => le_trans hab hbc⟩
  exact List.sorted_insertionSort _ l

/-- On an in-memory store that holds every user under its own `ID`, whatever
the order `order` in which the map iteration visits the keys, each key once,
`ListUsers` returns the stored users, each once, by strictly ascending `ID`:
the users read off by ascending key. It is the only arrangement of the visited
users that is sorted by `ID`, and the store is left as it is. -/
theorem ListUsers_of_ids (m : mockStore) (order : List Int)
    (hm : ∀ (k : Int) (u : User), m.users.lookup k = some u → u.ID = k)
    (hnodup : order.Nodup) (hkeys : ∀ k : Int, k ∈ order ↔ k ∈ m.users.keys) :
    ∃ us : List User,
      m.ListUsers order = (Except.ok us, m) ∧
        (us.map (fun u => u.ID)).Sorted (fun a b => a < b) ∧
        (∀ u : User, u ∈ us ↔ ∃ k : Int, m.users.lookup k = some u) ∧
        us.Nodup ∧ us.length = m.size ∧
        us = (sortedKeys m.users.keys).filterMap (fun k => m.users.lookup k) ∧
        ∀ l : List User, l.Perm (order.filterMap (fun k => m.users.lookup k)) →
          l.Sorted (fun a b => a.ID ≤ b.ID) → l = us := by
  have hmap : (order.filterMap (fun k => m.users.lookup k)).map (fun u => u.ID) = order :=
    map_ID_filterMap_lookup m.users hm order (fun k hk => Finmap.mem_keys.mp ((hkeys k).mp hk))
  have hperm := perm_sortByID (order.filterMap (fun k => m.users.lookup k))
  have hsorted := sorted_sortByID (order.filterMap (fun k => m.users.lookup k))
  have hidperm : ((sortByID (order.filterMap (fun k => m.users.lookup k))).map
      (fun u => u.ID)).Perm order := by
    have h := hperm.map (fun u : User => u.ID)
    rw [hmap] at h
    exact h
  have hidnodup : ((sortByID (order.filterMap (fun k => m.users.lookup k))).map
      (fun u => u.ID)).Nodup := hidperm.nodup_iff.mpr hnodup
  have hlt : ((sortByID (order.filterMap (fun k => m.users.lookup k))).map
      (fun u => u.ID)).Sorted (fun a b => a < b) :=
    List.Sorted.lt_of_le (List.pairwise_map.mpr hsorted) hidnodup
  have hkperm : order.Perm (sortedKeys m.users.keys) :=
    (List.perm_ext_iff_of_nodup hnodup (sortedKeys_sorted m.users.keys).nodup).mpr
      (fun k => by rw [hkeys k, mem_sortedKeys])
  have hcmap : ((sortedKeys m.users.keys).filterMap (fun k => m.users.lookup k)).map
      (fun u => u.ID) = sortedKeys m.users.keys :=
    map_ID_filterMap_lookup m.users hm (sortedKeys m.users.keys)
      (fun k hk => Finmap.mem_keys.mp ((mem_sortedKeys _ k).mp hk))
  have hcsorted : ((sortedKeys m.users.keys).filterMap (fun k => m.users.lookup k)).Sorted
      (fun a b => a.ID ≤ b.ID) := by
    have h := sortedKeys_sorted m.users.keys
    rw [← hcmap] at h
    exact (List.pairwise_map.mp h).imp (fun h' => Int.le_of_lt h')
  refine ⟨sortByID (order.filterMap (fun k => m.users.lookup k)), rfl, hlt, ?_, ?_, ?_, ?_, ?_⟩
  · intro u
    rw [hperm.mem_iff, List.mem_filterMap]
    constructor
    · rintro ⟨k, -, hk⟩
      exact ⟨k, hk⟩
    · rintro ⟨k, hk⟩
      exact ⟨k, (hkeys k).mpr (Finmap.mem_keys.mpr (Finmap.mem_of_lookup_eq_some hk)), hk⟩
  · exact List.Nodup.of_map _ hidnodup
  · rw [← List.length_map _ (fun u : User => u.ID), hidperm.length_eq,
      hkperm.length_eq, length_sortedKeys]
    rfl
  · exact eq_of_perm_of_sorted_ID _ _ (hperm.trans (hkperm.filterMap _)) hsorted hcsorted
      hidnodup
  · intro l hl hls
    exact (eq_of_perm_of_sorted_ID _ _ (hperm.trans hl.symm) hsorted hls hidnodup).symm

/-- Whatever the store, when its `ListUsers` succeeds `handleListUsers`
answers 200 with the list that the store returned, as it is. -/
theorem handleListUsers_of_ok {σ : Type} (store : Store σ) (s s' : σ) (r : Request)
    (us : List User) (h : store.ListUsers s = (Except.ok us, s')) :
    handleListUsers store s r = (s', { status := 200, body := Body.users us }) := by
  simp only [handleListUsers, h]

/-- Claim C14: `handleListUsers` responds 200 with exactly the sequence that
the `ListUsers` of the store returns, in the same order, nothing added,
dropped or moved. With the in-memory store, in any state that calls of its
operations lead to from the new store and whatever the order `iter` in which
the map iteration visits the keys (each key once), that sequence holds every
stored user exactly once, by strictly ascending id: it is the users read off
by ascending key, and the only arrangement of the visited users that is sorted
by id. After creating "Alice" and then "Bob" on the new store the response
lists Alice, then Bob, when the iteration visits the key 1 first and when it
visits the key 2 first. -/
theorem handleListUsers_lists_store (calls : List StoreCall) (iter : Finset Int → List Int)
    (r : Request) (hnodup : (iter (mockStore.after calls).users.keys).Nodup)
    (hkeys : ∀ k : Int, k ∈ iter (mockStore.after calls).users.keys ↔
      k ∈ (mockStore.after calls).users.keys) :
    (∀ (σ : Type) (store : Store σ) (s s' : σ) (us : List User),
        store.ListUsers s = (Except.ok us, s') →
          handleListUsers store s r = (s', { status := 200, body := Body.users us })) ∧
      (∃ us : List User,
        (mockStore.after calls).ListUsers (iter (mockStore.after calls).users.keys) =
            (Except.ok us, mockStore.after calls) ∧
          handleListUsers (mockStore.storeIn iter) (mockStore.after calls) r =
            (mockStore.after calls, { status := 200, body := Body.users us }) ∧
          (us.map (fun u => u.ID)).Sorted (fun a b => a < b) ∧
          (∀ u : User, u ∈ us ↔ ∃ k : Int, (mockStore.after calls).users.lookup k = some u) ∧
          us.Nodup ∧ us.length = (mockStore.after calls).size ∧
          us = (sortedKeys (mockStore.after calls).users.keys).filterMap
            (fun k => (mockStore.after calls).users.lookup k) ∧
          ∀ l : List User,
            l.Perm ((iter (mockStore.after calls).users.keys).filterMap
              (fun k => (mockStore.after calls).users.lookup k)) →
            l.Sorted (fun a b => a.ID ≤ b.ID) → l = us) ∧
      (∀ order : List Int, order = [1, 2] ∨ order = [2, 1] →
        handleListUsers (mockStore.storeIn (fun _ => order))
            (mockStore.after
              [StoreCall.CreateUser { Name := "Alice", Email := "alice@example.com", Age := 22 },
               StoreCall.CreateUser { Name := "Bob", Email := "bob@example.com", Age := 30 }])
            r =
          (mockStore.after
              [StoreCall.CreateUser { Name := "Alice", Email := "alice@example.com", Age := 22 },
               StoreCall.CreateUser { Name := "Bob", Email := "bob@example.com", Age := 30 }],
            { status := 200,
              body := Body.users
                [{ ID := 1, Name := "Alice", Email := "alice@example.com", Age := 22 },
                 { ID := 2, Name := "Bob", Email := "bob@example.com", Age := 30 }] })) := by
  refine ⟨fun σ store s s' us h => handleListUsers_of_ok store s s' r us h, ?_, ?_⟩
  · obtain ⟨us, hlist, hsorted, hmem, hnd, hlen, hcanon, huniq⟩ :=
      ListUsers_of_ids (mockStore.after calls) (iter (mockStore.after calls).users.keys)
        (after_ids calls) hnodup hkeys
    exact ⟨us, hlist, handleListUsers_of_ok (mockStore.storeIn iter) _ _ r us hlist, hsorted,
      hmem, hnd, hlen, hcanon, huniq⟩
  · intro order horder
    refine handleListUsers_of_ok (mockStore.storeIn (fun _ => order)) _ _ r _ ?_
    rcases horder with h | h <;> subst h <;> decide

/-- Claim C14 after creating Alice and then Bob on the new store, when the map
iteration visits Bob, under the key 2, before Alice: the response lists Alice,
then Bob. -/
theorem handleListUsers_lists_store_witness :
    handleListUsers (mockStore.storeIn (fun _ => [2, 1]))
        (mockStore.after
          [StoreCall.CreateUser { Name := "Alice", Email := "alice@example.com", Age := 22 },
           StoreCall.CreateUser { Name := "Bob", Email := "bob@example.com", Age := 30 }])
        { id := "", body := none } =
      (mockStore.after
          [StoreCall.CreateUser { Name := "Alice", Email := "alice@example.com", Age := 22 },
           StoreCall.CreateUser { Name := "Bob", Email := "bob@example.com", Age := 30 }],
        { status := 200,
          body := Body.users
            [{ ID := 1, Name := "Alice", Email := "alice@example.com", Age := 22 },
             { ID := 2, Name := "Bob", Email := "bob@example.com", Age := 30 }] }) :=
  (handleListUsers_lists_store
    [StoreCall.CreateUser { Name := "Alice", Email := "alice@example.com", Age := 22 },
     StoreCall.CreateUser { Name := "Bob", Email := "bob@example.com", Age := 30 }]
    (fun _ => [2, 1]) { id := "", body := none } (by decide)
    (fun k => by
      rw [← mem_sortedKeys]
      have hk : sortedKeys (mockStore.after
          [StoreCall.CreateUser { Name := "Alice", Email := "alice@example.com", Age := 22 },
           StoreCall.CreateUser { Name := "Bob", Email := "bob@example.com", Age := 30 }]
          ).users.keys = [1, 2] := by decide
      rw [hk]
      simp [or_comm])).2.2 [2, 1] (Or.inr rfl)

/-- Within the field `name` only the first rule that matches fires: the
errors on `name` are the one error that the `if`/`else if` on the name
appends. -/
theorem filter_name_errors (name email : String) (age : Int) :
    (validateUserInput name email age).filter (fun e => decide (e.Field = "name")) =
      if TrimSpace name = "" then [{ Field := "name", Message := "name is required" }]
      else if len name > 255 then
        [{ Field := "name", Message := "name is too long (max 255)" }]
      else [] := by
  rw [validateUserInput_eq_append]
  split_ifs <;> simp [List.filter]

/-- Within the field `email` only the first rule that matches fires. -/
theorem filter_email_errors (name email : String) (age : Int) :
    (validateUserInput name email age).filter (fun e => decide (e.Field = "email")) =
      if TrimSpace email = "" then [{ Field := "email", Message := "email is required" }]
      else if len email > 255 then
        [{ Field := "email", Message := "email is too long (max 255)" }]
      else [] := by
  rw [validateUserInput_eq_append]
  split_ifs <;> simp [List.filter]

/-- Claim C15: within a field only the first matching rule fires. For every
name whose trimmed value is empty, also a name of white space only that is
longer than 255 bytes such as 300 spaces, the errors on `name` are the single
error "name is required", and the error "name is too long (max 255)" is not
produced; for every name whose trimmed value is not empty and whose `len` is
above 255 they are the single error "name is too long (max 255)". The same
holds for the email with "email is required" and "email is too long (max
255)". -/
theorem validateUserInput_first_rule (name email : String) (age : Int) :
    ((validateUserInput name email age).filter (fun e => decide (e.Field = "name")) =
        if TrimSpace name = "" then [{ Field := "name", Message := "name is required" }]
        else if len name > 255 then
          [{ Field := "name", Message := "name is too long (max 255)" }]
        else []) ∧
      ((validateUserInput name email age).filter (fun e => decide (e.Field = "email")) =
        if TrimSpace email = "" then [{ Field := "email", Message := "email is required" }]
        else if len email > 255 then
          [{ Field := "email", Message := "email is too long (max 255)" }]
        else []) ∧
      (TrimSpace name = "" →
        ({ Field := "name", Message := "name is too long (max 255)" } : ValidationError) ∉
          validateUserInput name email age) ∧
      (TrimSpace email = "" →
        ({ Field := "email", Message := "email is too long (max 255)" } : ValidationError) ∉
          validateUserInput name email age) ∧
      TrimSpace (String.mk (List.replicate 300 ' ')) = "" ∧
      len (String.mk (List.replicate 300 ' ')) = 300 ∧
      (validateUserInput (String.mk (List.replicate 300 ' ')) email age).filter
          (fun e => decide (e.Field = "name")) =
        [{ Field := "name", Message := "name is required" }] := by
  have hblank : TrimSpace (String.mk (List.replicate 300 ' ')) = "" := by
    rw [TrimSpace_eq_empty_iff]
    intro c hc
    rw [List.eq_of_mem_replicate hc]
    decide
  refine ⟨filter_name_errors name email age, filter_email_errors name email age, ?_, ?_,
    hblank, ?_, ?_⟩
  · intro h hmem
    have hf : ({ Field := "name", Message := "name is too long (max 255)" } : ValidationError) ∈
        (validateUserInput name email age).filter (fun e => decide (e.Field = "name")) :=
      List.mem_filter.mpr ⟨hmem, by decide⟩
    rw [filter_name_errors, if_pos h] at hf
    revert hf
    decide
  · intro h hmem
    have hf : ({ Field := "email", Message := "email is too long (max 255)" } :
        ValidationError) ∈
        (validateUserInput name email age).filter (fun e => decide (e.Field = "email")) :=
      List.mem_filter.mpr ⟨hmem, by decide⟩
    rw [filter_email_errors, if_pos h] at hf
    revert hf
    decide
  · rw [len_replicate]
    decide
  · rw [filter_name_errors, if_pos hblank]

/-! ## Failures of the store -/

/-- Whatever the store, when its `CreateUser` fails `handleCreateUser` answers
500 with a fixed message, whatever the error is. -/
theorem handleCreateUser_of_store_error {σ : Type} (store : Store σ) (s s' : σ) (r : Request)
    (req : createUserRequest) (e : StoreError) (hbody : r.body = some req)
    (hvalid : validateUserInput req.Name req.Email req.Age = [])
    (h : store.CreateUser s { Name := req.Name, Email := req.Email, Age := req.Age } =
      (Except.error e, s')) :
    handleCreateUser store s r = (s', httpError "failed to create user" 500) := by
  simp only [handleCreateUser, hbody, hvalid, List.length_nil, gt_iff_lt, lt_self_iff_false,
    if_false, h]

/-- Whatever the store, when its `ListUsers` fails `handleListUsers` answers
500 with a fixed message, whatever the error is. -/
theorem handleListUsers_of_store_error {σ : Type} (store : Store σ) (s s' : σ) (r : Request)
    (e : StoreError) (h : store.ListUsers s = (Except.error e, s')) :
    handleListUsers store s r = (s', httpError "failed to list users" 500) := by
  simp only [handleListUsers, h]

/-- Whatever the store, when its `GetUser` fails with an error that is not
`sql.ErrNoRows`, `handleGetUser` answers 500 with a fixed message. -/
theorem handleGetUser_of_store_error {σ : Type} (store : Store σ) (s s' : σ) (r : Request)
    (id : Int) (e : StoreError) (hid : parseIDParam r = Except.ok id)
    (he : e.isErrNoRows = false) (h : store.GetUser s id = (Except.error e, s')) :
    handleGetUser store s r = (s', httpError "failed to get user" 500) := by
  simp only [handleGetUser, hid, h, he, Bool.false_eq_true, if_false]

/-- Whatever the store, when its `UpdateUser` fails with an error that is not
`sql.ErrNoRows`, `handleUpdateUser` answers 500 with a fixed message. -/
theorem handleUpdateUser_of_store_error {σ : Type} (store : Store σ) (s s' : σ) (r : Request)
    (id : Int) (req : createUserRequest) (e : StoreError)
    (hid : parseIDParam r = Except.ok id) (hbody : r.body = some req)
    (hvalid : validateUserInput req.Name req.Email req.Age = [])
    (he : e.isErrNoRows = false)
    (h : store.UpdateUser s
        { ID := id, Name := req.Name, Email := req.Email, Age := req.Age } =
      (Except.error e, s')) :
    handleUpdateUser store s r = (s', httpError "failed to update user" 500) := by
  simp only [handleUpdateUser, hid, hbody, hvalid, List.length_nil, gt_iff_lt,
    lt_self_iff_false, if_false, h, he, Bool.false_eq_true]

/-- Whatever the store, when its `DeleteUser` fails `handleDeleteUser` answers
500 with a fixed message, whatever the error is. -/
theorem handleDeleteUser_of_store_error {σ : Type} (store : Store σ) (s s' : σ) (r : Request)
    (id : Int) (e : StoreError) (hid : parseIDParam r = Except.ok id)
    (h : store.DeleteUser s id = (some e, s')) :
    handleDeleteUser store s r = (s', httpError "failed to delete user" 500) := by
  simp only [handleDeleteUser, hid, h]

/-- With a store that fails with an error that is not `sql.ErrNoRows`, the
response of each handler is a function of the request alone. -/
theorem failingStore_responses (e : StoreError) (r : Request) (he : e.isErrNoRows = false) :
    (handleCreateUser (failingStore e) () r).2 =
        (match r.body with
          | none => httpError "invalid JSON body" 400
          | some req =>
            if validateUserInput req.Name req.Email req.Age = [] then
              httpError "failed to create user" 500
            else
              { status := 400,
                body := Body.errors
                  { Errors := validateUserInput req.Name req.Email req.Age } }) ∧
      (handleListUsers (failingStore e) () r).2 = httpError "failed to list users" 500 ∧
      (handleGetUser (failingStore e) () r).2 =
        (match parseIDParam r with
          | Except.error _ => httpError "invalid id" 400
          | Except.ok _ => httpError "failed to get user" 500) ∧
      (handleUpdateUser (failingStore e) () r).2 =
        (match parseIDParam r with
          | Except.error _ => httpError "invalid id" 400
          | Except.ok _ =>
            match r.body with
            | none => httpError "invalid JSON body" 400
            | some req =>
              if validateUserInput req.Name req.Email req.Age = [] then
                httpError "failed to update user" 500
              else
                { status := 400,
                  body := Body.errors
                    { Errors := validateUserInput req.Name req.Email req.Age } }) ∧
      (handleDeleteUser (failingStore e) () r).2 =
        (match parseIDParam r with
          | Except.error _ => httpError "invalid id" 400
          | Except.ok _ => httpError "failed to delete user" 500) := by
  refine ⟨?_, rfl, ?_, ?_, ?_⟩
  · unfold handleCreateUser
    cases r.body with
    | none => rfl
    | some req =>
      dsimp only
      by_cases hv : validateUserInput req.Name req.Email req.Age = []
      · simp only [hv, List.length_nil, gt_iff_lt, lt_self_iff_false, if_false, if_true,
          failingStore]
      · rw [if_pos (List.length_pos.mpr hv), if_neg hv]
  · unfold handleGetUser
    cases parseIDParam r with
    | error err => rfl
    | ok id => simp only [failingStore, he, Bool.false_eq_true, if_false]
  · unfold handleUpdateUser
    cases parseIDParam r with
    | error err => rfl
    | ok id =>
      cases r.body with
      | none => rfl
      | some req =>
        dsimp only
        by_cases hv : validateUserInput req.Name req.Email req.Age = []
        · simp only [hv, List.length_nil, gt_iff_lt, lt_self_iff_false, if_false, if_true,
            failingStore, he, Bool.false_eq_true]
        · rw [if_pos (List.length_pos.mpr hv), if_neg hv]
  · unfold handleDeleteUser
    cases parseIDParam r <;> rfl

/-- Claim C16: the cause of an internal store failure is not exposed to the
caller. For each of Create, List, Get, Update and Delete, and any two store
errors `e₁` and `e₂` other than the not-found signal, the responses to the
same request when the store fails with `e₁` and when it fails with `e₂` are
identical; when the request reaches the store the response is status 500 with
the fixed plain-text message of the operation. -/
theorem store_failure_not_exposed (e₁ e₂ : StoreError) (r : Request)
    (h₁ : e₁.isErrNoRows = false) (h₂ : e₂.isErrNoRows = false) :
    (handleCreateUser (failingStore e₁) () r).2 = (handleCreateUser (failingStore e₂) () r).2 ∧
      (handleListUsers (failingStore e₁) () r).2 = (handleListUsers (failingStore e₂) () r).2 ∧
      (handleGetUser (failingStore e₁) () r).2 = (handleGetUser (failingStore e₂) () r).2 ∧
      (handleUpdateUser (failingStore e₁) () r).2 = (handleUpdateUser (failingStore e₂) () r).2 ∧
      (handleDeleteUser (failingStore e₁) () r).2 = (handleDeleteUser (failingStore e₂) () r).2 ∧
      (handleListUsers (failingStore e₁) () r).2 = httpError "failed to list users" 500 ∧
      (∀ req : createUserRequest, r.body = some req →
        validateUserInput req.Name req.Email req.Age = [] →
        (handleCreateUser (failingStore e₁) () r).2 = httpError "failed to create user" 500) ∧
      (∀ id : Int, parseIDParam r = Except.ok id →
        (handleGetUser (failingStore e₁) () r).2 = httpError "failed to get user" 500 ∧
          (handleDeleteUser (failingStore e₁) () r).2 =
            httpError "failed to delete user" 500 ∧
          ∀ req : createUserRequest, r.body = some req →
            validateUserInput req.Name req.Email req.Age = [] →
            (handleUpdateUser (failingStore e₁) () r).2 =
              httpError "failed to update user" 500) := by
  obtain ⟨hc₁, hl₁, hg₁, hu₁, hd₁⟩ := failingStore_responses e₁ r h₁
  obtain ⟨hc₂, hl₂, hg₂, hu₂, hd₂⟩ := failingStore_responses e₂ r h₂
  refine ⟨hc₁.trans hc₂.symm, hl₁.trans hl₂.symm, hg₁.trans hg₂.symm, hu₁.trans hu₂.symm,
    hd₁.trans hd₂.symm, hl₁, ?_, ?_⟩
  · intro req hbody hvalid
    rw [handleCreateUser_of_store_error (failingStore e₁) () () r req e₁ hbody hvalid rfl]
  · intro id hid
    refine ⟨?_, ?_, ?_⟩
    · rw [handleGetUser_of_store_error (failingStore e₁) () () r id e₁ hid h₁ rfl]
    · rw [handleDeleteUser_of_store_error (failingStore e₁) () () r id e₁ hid rfl]
    · intro req hbody hvalid
      rw [handleUpdateUser_of_store_error (failingStore e₁) () () r id req e₁ hid hbody hvalid
        h₁ rfl]

/-- Claim C16 at an Update of id 7 with a valid body, on a store that fails
with "connection refused" and on one that fails with "disk full": the two
responses are the same. -/
theorem store_failure_not_exposed_witness :
    (handleUpdateUser (failingStore (StoreError.other "connection refused")) ()
        { id := "7", body := some { Name := "X", Email := "x@example.com", Age := 30 } }).2 =
      (handleUpdateUser (failingStore (StoreError.other "disk full")) ()
        { id := "7", body := some { Name := "X", Email := "x@example.com", Age := 30 } }).2 :=
  (store_failure_not_exposed (StoreError.other "connection refused")
    (StoreError.other "disk full")
    { id := "7", body := some { Name := "X", Email := "x@example.com", Age := 30 } }
    rfl rfl).2.2.2.1

/-- Claim C17: `handleUpdateUser` checks in a fixed order, the id parameter,
then the decoding of the body, then the validation, then the store, and stops
at the first failure. With an id parameter that does not parse it answers 400
"invalid id" whatever the body is; with one that parses and a decoded body
that fails `validateUserInput` it answers 400 with the validation errors, not
404, also when the store holds no record for the id. In both cases, and when
the body does not decode, the state of the store is returned as it was and,
on a store that records its calls, no call is recorded. -/
theorem handleUpdateUser_check_order {σ : Type} (store : Store σ) (s : σ)
    (calls : List StoreCall) (r : Request) :
    (∀ e : NumError, parseIDParam r = Except.error e →
        handleUpdateUser store s r = (s, httpError "invalid id" 400) ∧
          handleUpdateUser (recording store) (s, calls) r =
            ((s, calls), httpError "invalid id" 400)) ∧
      (∀ id : Int, parseIDParam r = Except.ok id → r.body = none →
        handleUpdateUser store s r = (s, httpError "invalid JSON body" 400) ∧
          handleUpdateUser (recording store) (s, calls) r =
            ((s, calls), httpError "invalid JSON body" 400)) ∧
      (∀ (id : Int) (req : createUserRequest), parseIDParam r = Except.ok id →
        r.body = some req → validateUserInput req.Name req.Email req.Age ≠ [] →
        handleUpdateUser store s r =
            (s, { status := 400,
                  body := Body.errors
                    { Errors := validateUserInput req.Name req.Email req.Age } }) ∧
          handleUpdateUser (recording store) (s, calls) r =
            ((s, calls),
              { status := 400,
                body := Body.errors
                  { Errors := validateUserInput req.Name req.Email req.Age } })) ∧
      handleUpdateUser mockStore.store newMockStore
          { id := "abc", body := some { Name := "X", Email := "x@example.com", Age := 30 } } =
        (newMockStore, httpError "invalid id" 400) ∧
      newMockStore.users.lookup 999 = none ∧
      handleUpdateUser mockStore.store newMockStore
          { id := "999", body := some { Name := "", Email := "x@example.com", Age := 30 } } =
        (newMockStore,
          { status := 400,
            body := Body.errors
              { Errors := [{ Field := "name", Message := "name is required" }] } }) := by
  refine ⟨fun e he => ⟨?_, ?_⟩, fun id hid hbody => ⟨?_, ?_⟩,
    fun id req hid hbody hv => ⟨?_, ?_⟩, by decide, by decide, by decide⟩
  · exact (handlers_of_invalid_id store s r e he).2.1
  · exact (handlers_of_invalid_id (recording store) (s, calls) r e he).2.1
  · exact handleUpdateUser_of_no_body store s r id hid hbody
  · exact handleUpdateUser_of_no_body (recording store) (s, calls) r id hid hbody
  · exact handleUpdateUser_of_errors store s r id req hid hbody hv
  · exact handleUpdateUser_of_errors (recording store) (s, calls) r id req hid hbody hv

/-- Claim C17 at an Update of the id 999, which the new in-memory store does
not hold, with a body whose name is empty: 400 with the validation error and
no call recorded. -/
theorem handleUpdateUser_check_order_witness :
    handleUpdateUser (recording mockStore.store) (newMockStore, [])
        { id := "999", body := some { Name := "", Email := "x@example.com", Age := 30 } } =
      ((newMockStore, []),
        { status := 400,
          body := Body.errors
            { Errors := validateUserInput "" "x@example.com" 30 } }) :=
  ((handleUpdateUser_check_order mockStore.store newMockStore []
      { id := "999", body := some { Name := "", Email := "x@example.com", Age := 30 } }).2.2.1
    999 { Name := "", Email := "x@example.com", Age := 30 } (by decide) rfl (by decide)).2

end Server
